import Mathlib

/-!
# Verification of the MD2PDF Markdown-to-PDF converter

Shallow embedding of `src/MD2PDF.py` (class `MarkdownToPdfConverter`):

* the renderer `markdown_to_html` (page-break marker substitution via Python
  `str.replace`, the markdown extension list, and the fixed HTML template), and
* the batch conversion pipeline (`convert_to_pdf`, `convert_next_file`,
  `on_html_loaded`, `generate_pdf`, `check_pdf_generation`,
  `check_pdf_generation_final`, `on_single_conversion_finished`,
  `on_all_conversions_finished`) as a step function over an explicit state,
  driven by an environment supplying the asynchronous observations
  (overwrite-dialog answers, file reads, load-finished signals, print
  exceptions, filesystem polls).

The third-party Markdown library is treated as an opaque collaborator: the
renderer is parametric in the conversion function `md_convert`.

The pipeline is embedded twice: `pipeline_step` gives the single-dispatch
semantics in which each emitted load's completion signal is consumed exactly
once (the source's behavior while at most one `loadFinished` connection is
live), and `qt_step` gives the signal-faithful semantics in which a
delivered `loadFinished` invokes the handler once per live connection — the
regime created by the missing disconnect on the failure branch, where the
cancel, cursor and progress properties of the single-dispatch model fail.
-/

namespace MD2PDF

/-! ## Python string primitives

Python `str.replace(old, new)` scans left to right and replaces the
non-overlapping occurrences of `old`; `str.count(old)` counts the same
occurrences; `str.split(old)` cuts at the same occurrences.  The functions are
defined on `List Char` with an explicit fuel argument (always instantiated with
the length of the string, which is sufficient) so that they compute by kernel
reduction. -/

/-- Python `s.replace(old, new)` on `List Char`, with fuel.  Each left-to-right
non-overlapping occurrence of `old` is replaced by `new`.  The fuel is
decremented once per consumed character, so `s.length` fuel is enough. -/
def pyReplaceFuel (old new : List Char) : Nat → List Char → List Char
  | _, [] => []
  | 0, rest => rest
  | fuel + 1, c :: t =>
    if old ≠ [] ∧ old.isPrefixOf (c :: t) then
      new ++ pyReplaceFuel old new fuel ((c :: t).drop old.length)
    else
      c :: pyReplaceFuel old new fuel t

/-- Python `s.count(old)` on `List Char`): number of left-to-right
non-overlapping occurrences of `old` in `s`. -/
def countOccFuel (old : List Char) : Nat → List Char → Nat
  | _, [] => 0
  | 0, _ => 0
  | fuel + 1, c :: t =>
    if old ≠ [] ∧ old.isPrefixOf (c :: t) then
      countOccFuel old fuel ((c :: t).drop old.length) + 1
    else
      countOccFuel old fuel t

/-- Python `s.split(old)` on `List Char`: the segments of `s` between the
left-to-right non-overlapping occurrences of `old`. -/
def pySplitFuel (old : List Char) : Nat → List Char → List (List Char)
  | _, [] => [[]]
  | 0, rest => [rest]
  | fuel + 1, c :: t =>
    if old ≠ [] ∧ old.isPrefixOf (c :: t) then
      [] :: pySplitFuel old fuel ((c :: t).drop old.length)
    else
      match pySplitFuel old fuel t with
      | [] => [[c]]
      | p :: ps => (c :: p) :: ps

/-- Python `s.replace(old, new)`. -/
def pyReplace (old new s : List Char) : List Char :=
  pyReplaceFuel old new s.length s

/-- Python `s.count(old)`: the number of non-overlapping occurrences. -/
def countOcc (old s : List Char) : Nat :=
  countOccFuel old s.length s

/-- Python `s.split(old)`. -/
def pySplit (old s : List Char) : List (List Char) :=
  pySplitFuel old s.length s

/-- Python `sep.join(pieces)` on `List Char`. -/
def joinSep (sep : List Char) : List (List Char) → List Char
  | [] => []
  | [p] => p
  | p :: q :: ps => p ++ sep ++ joinSep sep (q :: ps)

/-- String-level wrapper for Python `s.replace(old, new)`. -/
def pyReplaceStr (s old new : String) : String :=
  String.mk (pyReplace old.data new.data s.data)

/-! ## Renderer: `markdown_to_html` (src/MD2PDF.py lines 818-1025)

The renderer replaces the page-break marker in the raw Markdown, runs the
third-party Markdown conversion (opaque, passed as `md_convert`) with the
configured extension list, and embeds the body in the fixed HTML template
`templatePrefix ++ body ++ templateSuffix` (the f-string of lines 848-1024,
with `\x7b`, `\x7d`, `\x27` escaping literal braces and apostrophes). -/

/-- Text of the f-string template before the `body_html` interpolation point. -/
def templatePrefix : String := "
<!DOCTYPE html>
<html lang=\"ja\">
<head>
    <meta charset=\"utf-8\">
    <meta name=\"viewport\" content=\"width=device-width, initial-scale=1.0\">
    <meta name=\"color-scheme\" content=\"light\">
    <meta name=\"print-color-adjust\" content=\"exact\">
    <style>
        body \x7b
            font-family: -apple-system, BlinkMacSystemFont, \x27Segoe UI\x27, \x27Helvetica Neue\x27, \x27Hiragino Sans\x27, Arial, \x27Meiryo\x27, sans-serif;
            line-height: 1.6;
            color: #333;
            max-width: 900px;
            margin: 20px auto;
            padding: 20px;
            background: white;
            box-shadow: 0 0 10px rgba(0,0,0,0.1);
            border-radius: 4px;
        \x7d
        h1, h2, h3, h4, h5, h6 \x7b
            margin-top: 24px;
            margin-bottom: 16px;
            font-weight: 600;
            line-height: 1.25;
        \x7d
        h1 \x7b font-size: 2em; border-bottom: 1px solid #eaecef; padding-bottom: .3em; \x7d
        h2 \x7b font-size: 1.5em; border-bottom: 1px solid #eaecef; padding-bottom: .3em; \x7d
        h3 \x7b font-size: 1.25em; \x7d
        code \x7b
            background-color: rgba(27,31,35,.05);
            border-radius: 3px;
            font-family: \x27SFMono-Regular\x27, Consolas, \x27Liberation Mono\x27, Menlo, monospace;
            font-size: 85%;
            margin: 0;
            padding: .2em .4em;
        \x7d
        pre \x7b
            background-color: #f6f8fa;
            border-radius: 3px;
            font-size: 85%;
            line-height: 1.45;
            overflow: auto;
            padding: 16px;
        \x7d
        pre code \x7b
            background-color: transparent;
            border: 0;
            display: inline;
            line-height: inherit;
            margin: 0;
            overflow: visible;
            padding: 0;
            word-wrap: normal;
        \x7d
        table \x7b
            border-collapse: collapse;
            margin: 16px 0;
            width: 100%;
            display: table;
        \x7d
        table th, table td \x7b
            border: 1px solid #dfe2e5;
            padding: 6px 13px;
        \x7d
        table th \x7b
            background-color: #f6f8fa;
            font-weight: 600;
        \x7d
        blockquote \x7b
            border-left: 4px solid #dfe2e5;
            color: #6a737d;
            padding-left: 16px;
            margin: 16px 0;
        \x7d
        img \x7b
            max-width: 100%;
            height: auto;
            -webkit-print-color-adjust: exact !important;
            print-color-adjust: exact !important;
        \x7d
        .mermaid \x7b
            text-align: center;
            margin: 16px 0;
            padding: 16px;
            background-color: #f8f9fa;
            border: 1px solid #e9ecef;
            border-radius: 4px;
        \x7d
        /* 印刷用スタイル */
        @media print \x7b
            body \x7b
                margin: 0;
                padding: 10mm;
                font-size: 10pt;
                color: #333 !important;
                -webkit-print-color-adjust: exact !important;
                print-color-adjust: exact !important;
            \x7d
            .page-break \x7b
                page-break-after: always;
                break-after: page;
            \x7d
            h1, h2, h3 \x7b
                page-break-after: avoid;
                color: #333 !important;
            \x7d
            pre, table, blockquote \x7b
                page-break-inside: avoid;
            \x7d
            code \x7b
                background-color: rgba(27,31,35,.05) !important;
                -webkit-print-color-adjust: exact !important;
                print-color-adjust: exact !important;
            \x7d
            pre \x7b
                background-color: #f6f8fa !important;
                -webkit-print-color-adjust: exact !important;
                print-color-adjust: exact !important;
            \x7d
            table th \x7b
                background-color: #f6f8fa !important;
                -webkit-print-color-adjust: exact !important;
                print-color-adjust: exact !important;
            \x7d
            blockquote \x7b
                border-left: 4px solid #dfe2e5 !important;
                color: #6a737d !important;
                -webkit-print-color-adjust: exact !important;
                print-color-adjust: exact !important;
            \x7d
            .mermaid \x7b
                background-color: #f8f9fa !important;
                border: 1px solid #e9ecef !important;
                -webkit-print-color-adjust: exact !important;
                print-color-adjust: exact !important;
            \x7d
            img \x7b
                -webkit-print-color-adjust: exact !important;
                print-color-adjust: exact !important;
                color-adjust: exact !important;
            \x7d
            * \x7b
                -webkit-print-color-adjust: exact !important;
                print-color-adjust: exact !important;
            \x7d
        \x7d
    </style>
</head>
<body>
    "

/-- Text of the f-string template after the `body_html` interpolation point. -/
def templateSuffix : String := "
    <script>
        // Mermaidコードブロックを処理（エラーハンドリング付き）
        try \x7b
            if (typeof document !== \x27undefined\x27 && document.querySelectorAll) \x7b
                document.querySelectorAll(\x27pre code.language-mermaid\x27).forEach(function(element) \x7b
                    try \x7b
                        const mermaidCode = element.textContent;
                        const mermaidDiv = document.createElement(\x27div\x27);
                        mermaidDiv.className = \x27mermaid\x27;
                        mermaidDiv.innerHTML = \x27<pre style=\"text-align: left; background: #f8f9fa; padding: 10px; border-radius: 4px;\"><code>\x27 + 
                                              mermaidCode.replace(/</g, \x27&lt;\x27).replace(/>/g, \x27&gt;\x27) + \x27</code></pre>\x27;
                        if (element.parentNode && element.parentNode.parentNode) \x7b
                            element.parentNode.parentNode.replaceChild(mermaidDiv, element.parentNode);
                        \x7d
                    \x7d catch (e) \x7b
                        console.log(\x27Mermaid processing error:\x27, e);
                    \x7d
                \x7d);
            \x7d
        \x7d catch (e) \x7b
            console.log(\x27Document processing error:\x27, e);
        \x7d
    </script>
</body>
</html>
"

/-- Default page-break marker, `self.page_break_marker` set in
`MarkdownToPdfConverter.__init__` (line 116) and never reassigned. -/
def defaultPageBreakMarker : String := "<!-- pagebreak -->"

/-- Replacement text inserted for each occurrence of the page-break marker
(lines 822-825): a block-level div that forces a page break in print media. -/
def pageBreakDiv : String := "<div class=\"page-break\" style=\"page-break-after: always;\"></div>"

/-- Python `self.pagebreak_input.text() or self.page_break_marker` (line 821):
an empty (falsy) input string falls back to the default marker field. -/
def effectiveMarker (inputText markerField : String) : String :=
  if inputText = "" then markerField else inputText

/-- The extension list of lines 828-840, with `none` standing for Python
`None` when the table-of-contents checkbox is off. -/
def markdownExtensions (include_toc : Bool) : List (Option String) :=
  [some "fenced_code", some "tables",
   if include_toc then some "toc" else none,
   some "nl2br", some "sane_lists", some "codehilite", some "attr_list",
   some "def_list", some "footnotes", some "md_in_html", some "meta"]

/-- Line 841: `extensions = [ext for ext in extensions if ext]`. -/
def activeExtensions (include_toc : Bool) : List String :=
  (markdownExtensions include_toc).filterMap id

/-- Embeds the converted body into the fixed template (lines 848-1024). -/
def htmlTemplate (body_html : String) : String :=
  templatePrefix ++ body_html ++ templateSuffix

/-- The converter state read by `markdown_to_html`: the marker text field, the
default marker attribute and the TOC checkbox, together with unrelated mutable
attributes of the window (used to state that the renderer does not depend on
them). -/
structure RenderState where
  pagebreak_input : String
  page_break_marker : String
  include_toc : Bool
  current_file_index : Nat
  output_folder : String

/-- The renderer `markdown_to_html` (lines 818-1025).  `md_convert` is the
opaque third-party `markdown.Markdown(extensions=...).convert`; the raw
Markdown first has every occurrence of the effective page-break marker
replaced by `pageBreakDiv`, is then converted, and the result is embedded in
the fixed template. -/
def markdown_to_html (md_convert : List String → String → String)
    (s : RenderState) (markdown_content : String) : String :=
  let page_break_marker := effectiveMarker s.pagebreak_input s.page_break_marker
  let substituted := pyReplaceStr markdown_content page_break_marker pageBreakDiv
  let body_html := md_convert (activeExtensions s.include_toc) substituted
  htmlTemplate body_html

/-! ## Batch conversion pipeline (src/MD2PDF.py lines 1027-1252)

The pipeline is a single cooperative flow: per-file steps are chained through
the `loadFinished` signal and `QTimer.singleShot` callbacks.  It is embedded
as a step function on an explicit state; one step corresponds to one of the
callback bodies of the source.  The asynchronous observations (whether the
output path already exists, the dialog answer, the outcome of reading the
source file, the load-finished boolean, whether `printToPdf` raises, and the
two filesystem polls) are supplied by an environment, per file index. -/

/-- Timer delays of the source, in milliseconds: the render-settle delay
before printing (line 1122), the first PDF check delay (line 1150) and the
grace delay before the final check (lines 1173 and 1176). -/
def settleDelayMs : Nat := 3000

/-- First PDF-existence poll delay (line 1150). -/
def firstCheckDelayMs : Nat := 10000

/-- Grace delay before the final PDF-existence poll (lines 1173, 1176). -/
def graceCheckDelayMs : Nat := 5000

/-- Kinds of per-file errors appended to `self.conversion_errors`.  Each is
recorded in the source as the string `f"{file_name}.md: <message>"`. -/
inductive ErrKind where
  /-- Exception while reading/converting the source file (line 1099). -/
  | readError (msg : String)
  /-- `loadFinished` reported failure (line 1107). -/
  | loadFailed
  /-- `printToPdf` raised (line 1154). -/
  | pdfGenError (msg : String)
  /-- Final check: file exists with size 0 (line 1196). -/
  | pdfEmpty
  /-- Final check: file does not exist (line 1202). -/
  | pdfNotGenerated
  /-- `on_single_conversion_finished` called with `success=False` (line 1215);
  never actually reached, the source only calls it with `True`. -/
  | conversionFailed
deriving DecidableEq, Repr

/-- The source's Japanese message string for each error kind (without the
`f"{file_name}.md: "` prefix). -/
def errMessage : ErrKind → String
  | .readError msg => msg
  | .loadFailed => "HTMLのロードに失敗しました"
  | .pdfGenError msg => "PDF生成エラー - " ++ msg
  | .pdfEmpty => "PDFファイルが空です（0バイト）"
  | .pdfNotGenerated => "PDFファイルが生成されませんでした"
  | .conversionFailed => "変換に失敗しました"

/-- Result of the first PDF check `check_pdf_generation` (lines 1164-1176). -/
inductive FirstCheckStep where
  /-- File exists and is larger than 1024 bytes: success now. -/
  | finishedSuccess
  /-- Otherwise: wait a further 5 seconds and run the final check. -/
  | waitFinal
deriving DecidableEq, Repr

/-- Result of the final PDF check `check_pdf_generation_final`
(lines 1183-1204). -/
inductive FinalCheckStep where
  /-- File exists and is not 0 bytes: success. -/
  | finishedSuccess
  /-- Missing or empty file: the recorded error. -/
  | failed (k : ErrKind)
deriving DecidableEq, Repr

/-- `check_pdf_generation` (lines 1164-1176): the poll observation is
`none` when `os.path.exists` is false, `some size` otherwise.  A file larger
than 1 KB is an immediate success; everything else defers to the final check
after a further 5-second wait. -/
def check_pdf_generation (fs : Option Nat) : FirstCheckStep :=
  match fs with
  | some file_size => if 1024 < file_size then .finishedSuccess else .waitFinal
  | none => .waitFinal

/-- `check_pdf_generation_final` (lines 1183-1204): file exists and is not
0 bytes is a success; an existing empty file or a missing file records the
corresponding error. -/
def check_pdf_generation_final (fs : Option Nat) : FinalCheckStep :=
  match fs with
  | some file_size =>
    if 0 < file_size then .finishedSuccess else .failed .pdfEmpty
  | none => .failed .pdfNotGenerated

/-- Combined observable outcome of the verification step: what the pair of
polls records for a file, given the two poll observations. -/
def pdfVerificationOutcome (fsFirst fsFinal : Option Nat) : FinalCheckStep :=
  match check_pdf_generation fsFirst with
  | .finishedSuccess => .finishedSuccess
  | .waitFinal => check_pdf_generation_final fsFinal

/-- Answer to the three-way overwrite dialog of lines 1063-1068
(`QMessageBox.Yes | No | Cancel`). -/
inductive PromptAnswer where
  | yes
  | no
  | cancel
deriving DecidableEq, Repr

/-- Phase of the per-file state machine: which callback of the source runs
next.  `nextFile` is `convert_next_file`; `loading` waits for `loadFinished`
(`on_html_loaded`); `settling` waits for the 3-second render-settle timer
(`generate_pdf`); `checking1`/`checking2` wait for the two PDF polls; `done`
is the terminal state after `on_all_conversions_finished`. -/
inductive Phase where
  | nextFile
  | loading
  | settling
  | checking1
  | checking2
  | done
deriving DecidableEq, Repr

/-- The environment: the asynchronous observations for file index `i`. -/
structure ConversionEnv where
  /-- `output_path.exists()` at the time file `i` is considered (line 1063). -/
  output_exists : Nat → Bool
  /-- The user's dialog answer for file `i` (lines 1064-1068). -/
  overwrite_answer : Nat → PromptAnswer
  /-- Outcome of `open(...).read()` for file `i` (lines 1081-1082):
  `Except.error msg` when the read raises. -/
  read_result : Nat → Except String Unit
  /-- The boolean the engine passes to `on_html_loaded` for file `i`. -/
  load_success : Nat → Bool
  /-- `some msg` when `printToPdf` raises for file `i` (line 1148). -/
  print_raises : Nat → Option String
  /-- First filesystem poll for file `i`: `none` if the output file does not
  exist, `some size` otherwise. -/
  fs_first : Nat → Option Nat
  /-- Final filesystem poll for file `i`. -/
  fs_final : Nat → Option Nat

/-- Converter options fixed for the duration of a job. -/
structure ConversionConfig where
  /-- The `confirm_overwrite` checkbox (line 1063). -/
  confirm_overwrite : Bool

/-- Mutable state of the conversion job. -/
structure ConversionState where
  /-- `self.total_files` (line 1034). -/
  total_files : Nat
  /-- `self.current_conversion_index` (line 1033). -/
  current_conversion_index : Nat
  /-- `self.conversion_errors` (line 1035), as (file index, kind) pairs; the
  source stores `f"{file_name}.md: " ++ errMessage kind` where `file_name` is
  the stem of file `i`. -/
  conversion_errors : List (Nat × ErrKind)
  /-- `self.progress_bar` value (lines 1038, 1056-1057, ...). -/
  progress_bar : Nat
  /-- Which callback runs next. -/
  phase : Phase
  /-- Number of live `loadFinished.connect(self.on_html_loaded)` connections
  (line 1095 connects; line 1114 disconnects all, success branch only). -/
  load_connections : Nat
  /-- Indices of files submitted to `printToPdf` (line 1148), in order. -/
  printed_files : List Nat
  /-- Indices of files for which an HTML load was emitted via `setHtml`
  (line 1096), in order. -/
  loads_emitted : List Nat
  /-- The success count reported by `on_all_conversions_finished`
  (line 1230), once it has run. -/
  reported_success : Option Nat
deriving DecidableEq, Repr

/-- State after `convert_to_pdf` initializes the job (lines 1033-1041). -/
def initConversionState (total_files : Nat) : ConversionState :=
  { total_files := total_files
    current_conversion_index := 0
    conversion_errors := []
    progress_bar := 0
    phase := .nextFile
    load_connections := 0
    printed_files := []
    loads_emitted := []
    reported_success := none }

/-- `on_all_conversions_finished` (lines 1225-1249): sets the progress bar to
100 and reports `total_files - len(conversion_errors)` successes. -/
def on_all_conversions_finished (s : ConversionState) : ConversionState :=
  { s with progress_bar := 100
           reported_success := some (s.total_files - s.conversion_errors.length)
           phase := .done }

/-- `on_single_conversion_finished` (lines 1211-1223): records an error when
called with `success=False` (never happens in the source), sets the overall
progress to `(i+1)*100/total_files`, advances the cursor and goes back to
`convert_next_file`. -/
def on_single_conversion_finished (s : ConversionState) (success : Bool) :
    ConversionState :=
  let i := s.current_conversion_index
  let s1 := if success then s
    else { s with conversion_errors :=
                    s.conversion_errors ++ [(i, ErrKind.conversionFailed)] }
  { s1 with progress_bar := (i + 1) * 100 / s1.total_files
            current_conversion_index := i + 1
            phase := .nextFile }

/-- The `try:` block of `convert_next_file` (lines 1079-1101): read the file
(recording a read error and advancing on failure), update the progress by the
20-percent step, connect `on_html_loaded` to `loadFinished` and emit the HTML
load. -/
def load_current_file (env : ConversionEnv) (s : ConversionState) (i : Nat) :
    ConversionState :=
  match env.read_result i with
  | .error msg =>
    { s with conversion_errors := s.conversion_errors ++ [(i, .readError msg)]
             current_conversion_index := i + 1 }
  | .ok _ =>
    { s with progress_bar :=
               i * 100 / s.total_files + 20 / s.total_files
             load_connections := s.load_connections + 1
             loads_emitted := s.loads_emitted ++ [i]
             phase := .loading }

/-- `convert_next_file` (lines 1043-1101).  At the end of the list it
finalizes; otherwise it updates the base progress, asks the three-way
overwrite question when the output exists and confirmation is on (Cancel
finalizes immediately, No skips the file by advancing the cursor), and
otherwise reads the file and emits the HTML load. -/
def convert_next_file (cfg : ConversionConfig) (env : ConversionEnv)
    (s : ConversionState) : ConversionState :=
  if s.total_files ≤ s.current_conversion_index then
    on_all_conversions_finished s
  else
    let i := s.current_conversion_index
    let s1 := { s with progress_bar := i * 100 / s.total_files }
    if env.output_exists i && cfg.confirm_overwrite then
      match env.overwrite_answer i with
      | .cancel => on_all_conversions_finished s1
      | .no => { s1 with current_conversion_index := i + 1 }
      | .yes => load_current_file env s1 i
    else
      load_current_file env s1 i

/-- `on_html_loaded` (lines 1103-1128).  On failure: record the error,
advance, continue — without disconnecting `loadFinished` (the source's
failure branch returns before the `disconnect()` call).  On success:
disconnect all connections, update progress by the 40-percent step and wait
for the render-settle timer. -/
def on_html_loaded (env : ConversionEnv) (s : ConversionState) :
    ConversionState :=
  let i := s.current_conversion_index
  if env.load_success i then
    { s with load_connections := 0
             progress_bar := i * 100 / s.total_files + 40 / s.total_files
             phase := .settling }
  else
    { s with conversion_errors := s.conversion_errors ++ [(i, .loadFailed)]
             current_conversion_index := i + 1
             phase := .nextFile }

/-- `generate_pdf` (lines 1130-1162): update progress by the 60-percent step,
submit `printToPdf` (recording the error and advancing when it raises) and
schedule the first PDF check. -/
def generate_pdf (env : ConversionEnv) (s : ConversionState) :
    ConversionState :=
  let i := s.current_conversion_index
  let s1 := { s with progress_bar :=
                       i * 100 / s.total_files + 60 / s.total_files }
  match env.print_raises i with
  | some msg =>
    { s1 with conversion_errors :=
                s1.conversion_errors ++ [(i, .pdfGenError msg)]
              current_conversion_index := i + 1
              phase := .nextFile }
  | none =>
    { s1 with printed_files := s1.printed_files ++ [i]
              phase := .checking1 }

/-- The first PDF poll, as a state transition. -/
def check_pdf_first (env : ConversionEnv) (s : ConversionState) :
    ConversionState :=
  match check_pdf_generation (env.fs_first s.current_conversion_index) with
  | .finishedSuccess => on_single_conversion_finished s true
  | .waitFinal => { s with phase := .checking2 }

/-- The final PDF poll, as a state transition. -/
def check_pdf_final (env : ConversionEnv) (s : ConversionState) :
    ConversionState :=
  let i := s.current_conversion_index
  match check_pdf_generation_final (env.fs_final i) with
  | .finishedSuccess => on_single_conversion_finished s true
  | .failed k =>
    { s with conversion_errors := s.conversion_errors ++ [(i, k)]
             current_conversion_index := i + 1
             phase := .nextFile }

/-- One step of the pipeline under the single-dispatch semantics: runs the
callback body selected by the phase, consuming each emitted load's
completion signal exactly once (`done` is absorbing).  This matches the
source only while at most one `loadFinished` connection is live; after a
load failure the stale connection (the C4 bug) makes Qt invoke the handler
once per connection — that regime is covered by the signal-faithful model
`qt_step` below. -/
def pipeline_step (cfg : ConversionConfig) (env : ConversionEnv)
    (s : ConversionState) : ConversionState :=
  match s.phase with
  | .nextFile => convert_next_file cfg env s
  | .loading => on_html_loaded env s
  | .settling => generate_pdf env s
  | .checking1 => check_pdf_first env s
  | .checking2 => check_pdf_final env s
  | .done => s

/-- The job after `n` steps, starting from `convert_to_pdf` with
`total_files = N`. -/
def pipeline_run (cfg : ConversionConfig) (env : ConversionEnv) (N : Nat) :
    Nat → ConversionState
  | 0 => initConversionState N
  | n + 1 => pipeline_step cfg env (pipeline_run cfg env N n)

/-- Iterating the step function from an arbitrary state. -/
def stepIter (cfg : ConversionConfig) (env : ConversionEnv) :
    Nat → ConversionState → ConversionState
  | 0, s => s
  | n + 1, s => stepIter cfg env n (pipeline_step cfg env s)

/-- Exact relationship between the stored progress value and the job state:
the base progress `index*100/total` plus the intra-file increment of the
phase (20 after the HTML conversion when the load starts, 40 when the load
finished, 60 when the settle timer fired and printing started); at `nextFile`
the bar still holds the value of the previous transition, which is at most
the new base. -/
def progressSpec (N : Nat) (s : ConversionState) : Prop :=
  match s.phase with
  | .nextFile => s.progress_bar ≤ s.current_conversion_index * 100 / N
  | .loading => s.progress_bar = s.current_conversion_index * 100 / N + 20 / N
  | .settling => s.progress_bar = s.current_conversion_index * 100 / N + 40 / N
  | .checking1 => s.progress_bar = s.current_conversion_index * 100 / N + 60 / N
  | .checking2 => s.progress_bar = s.current_conversion_index * 100 / N + 60 / N
  | .done => s.progress_bar = 100

/-- Job invariant: everything that holds in every reachable state of a job
over `N` files. -/
structure ConvInv (N : Nat) (s : ConversionState) : Prop where
  total_eq : s.total_files = N
  idx_le : s.current_conversion_index ≤ N
  idx_lt : s.phase ≠ .nextFile → s.phase ≠ .done → s.current_conversion_index < N
  err_idx : ∀ e ∈ s.conversion_errors, e.1 < s.current_conversion_index
  err_len : s.conversion_errors.length ≤ s.current_conversion_index
  printed_idx : ∀ x ∈ s.printed_files,
      x < s.current_conversion_index ∨
        (x = s.current_conversion_index ∧
          (s.phase = .checking1 ∨ s.phase = .checking2))
  loads_idx : ∀ x ∈ s.loads_emitted,
      x < s.current_conversion_index ∨
        (x = s.current_conversion_index ∧ s.phase ≠ .nextFile ∧ s.phase ≠ .done)
  progress : progressSpec N s
  done_final : s.phase = .done →
      s.progress_bar = 100 ∧
      s.reported_success = some (N - s.conversion_errors.length)

/-- Rank of a phase inside the processing of one file, used in the
termination measure. -/
def phaseRank : Phase → Nat
  | .done => 0
  | .checking2 => 1
  | .checking1 => 2
  | .settling => 3
  | .loading => 4
  | .nextFile => 5

/-- Termination measure of the job: strictly decreases at every step of a
non-terminal state. -/
def jobMeasure (s : ConversionState) : Nat :=
  (s.total_files - s.current_conversion_index) * 6 + phaseRank s.phase

/-! ### Concrete fixtures used by witnesses and counterexamples -/

/-- Stand-in for the opaque third-party Markdown conversion (used only to
instantiate witnesses; the theorems quantify over the conversion function). -/
def idConvert : List String → String → String := fun _ s => s

/-- A render state whose marker text field is `"div"`. -/
def stMarkerDiv : RenderState :=
  { pagebreak_input := "div", page_break_marker := defaultPageBreakMarker
    include_toc := true, current_file_index := 0, output_folder := "" }

/-- Two render states agreeing on the three renderer inputs but differing in
the unrelated mutable attributes. -/
def stA : RenderState :=
  { pagebreak_input := "@@@", page_break_marker := defaultPageBreakMarker
    include_toc := true, current_file_index := 0, output_folder := "/out" }

/-- See `stA`. -/
def stB : RenderState :=
  { pagebreak_input := "@@@", page_break_marker := defaultPageBreakMarker
    include_toc := true, current_file_index := 7, output_folder := "/elsewhere" }

/-- A render state whose marker text field is empty. -/
def stEmptyMarker : RenderState :=
  { pagebreak_input := "", page_break_marker := defaultPageBreakMarker
    include_toc := false, current_file_index := 0, output_folder := "" }

/-- Overwrite confirmation enabled. -/
def cfgConfirm : ConversionConfig := { confirm_overwrite := true }

/-- Overwrite confirmation disabled. -/
def cfgNoConfirm : ConversionConfig := { confirm_overwrite := false }

/-- Environment where every observation succeeds: no pre-existing outputs,
readable files, successful loads, no print exception, and PDFs appear with
2000 bytes at the first poll. -/
def envAllOk : ConversionEnv :=
  { output_exists := fun _ => false
    overwrite_answer := fun _ => .yes
    read_result := fun _ => .ok ()
    load_success := fun _ => true
    print_raises := fun _ => none
    fs_first := fun _ => some 2000
    fs_final := fun _ => some 2000 }

/-- Like `envAllOk`, but the output of file 1 already exists and the user
answers Cancel for it. -/
def envCancelAt1 : ConversionEnv :=
  { envAllOk with
    output_exists := fun i => i == 1
    overwrite_answer := fun i => if i == 1 then .cancel else .yes }

/-- Like `envAllOk`, but the output of file 1 already exists and the user
answers No (skip) for it. -/
def envSkipAt1 : ConversionEnv :=
  { envAllOk with
    output_exists := fun i => i == 1
    overwrite_answer := fun i => if i == 1 then .no else .yes }

/-- Like `envAllOk`, but the HTML load of file 0 reports failure. -/
def envLoadFailAt0 : ConversionEnv :=
  { envAllOk with load_success := fun i => !(i == 0) }

/-- Like `envAllOk`, but every PDF poll reports a missing file, so every file
fails verification. -/
def envNeverWritten : ConversionEnv :=
  { envAllOk with fs_first := fun _ => none, fs_final := fun _ => none }

/-- Like `envAllOk`, but the user cancels already at file 0. -/
def envCancelAt0 : ConversionEnv :=
  { envAllOk with
    output_exists := fun _ => true
    overwrite_answer := fun _ => .cancel }

/-! ## Signal-faithful pipeline model

`pipeline_step` above dispatches `on_html_loaded` once per emitted load.
That is the source's behavior only while at most one `loadFinished`
connection is live: because the failure branch of `on_html_loaded` does not
disconnect (the C4 bug), a failed load leaves a stale connection, and Qt
invokes the slot once per live connection at the next emission.  The model
below is faithful to that semantics: the state carries the live connection
count, the pending engine/timer callbacks as a queue (in the runs evaluated
below at most one callback is ever pending, so queue order is immaterial),
and the `self.current_output_path` attribute.  A `loadFinished` delivery
snapshots the connection count and runs the failure branch that many times;
on the success path the first invocation's `disconnect()` removes every
connection, which cancels the remaining invocations of the same emission.
Synchronous `convert_next_file` chains (the skip and error recursions of the
source) run to completion inside the invocation. -/

/-- Pending event-loop callbacks: a finished HTML load for file `i`
(line 1096), the 3 s render-settle timer (line 1122), and the two PDF-check
timers with the output path their closures captured (lines 1150, 1173,
1176). -/
inductive QtEvent where
  | loadFinished (i : Nat)
  | settleTimer
  | checkFirstTimer (path : Nat)
  | checkFinalTimer (path : Nat)
deriving DecidableEq, Repr

/-- State of the signal-faithful model.  `current_output_path` is the file
index whose output path `self.current_output_path` last received
(line 1094); `done_count` counts executions of
`on_all_conversions_finished`; `crashed` records an uncaught `IndexError`
from `self.current_files[self.current_conversion_index]` with the cursor
past the end of the list (reachable in the source only through the C4
bug). -/
structure QtState where
  total_files : Nat
  current_conversion_index : Nat
  conversion_errors : List (Nat × ErrKind)
  progress_bar : Nat
  load_connections : Nat
  printed_files : List Nat
  loads_emitted : List Nat
  reported_success : Option Nat
  current_output_path : Option Nat
  queue : List QtEvent
  done_count : Nat
  crashed : Bool
deriving DecidableEq, Repr

/-- `on_all_conversions_finished` in the signal-faithful model; the count of
its executions is recorded. -/
def qt_finalize (s : QtState) : QtState :=
  { s with progress_bar := 100
           reported_success :=
             some (s.total_files - s.conversion_errors.length)
           done_count := s.done_count + 1 }

/-- `convert_next_file` run synchronously to completion (the source recurses
on skip and on a read error, lines 1073-1077 and 1098-1101).  The cursor
grows at every recursion, so `total_files + 1` fuel always suffices. -/
def qt_convert_next_file (cfg : ConversionConfig) (env : ConversionEnv) :
    Nat → QtState → QtState
  | 0, s => s
  | fuel + 1, s =>
    if s.total_files ≤ s.current_conversion_index then qt_finalize s
    else
      let i := s.current_conversion_index
      let s1 := { s with progress_bar := i * 100 / s.total_files }
      let tryLoad := fun (s2 : QtState) =>
        match env.read_result i with
        | .error msg =>
          qt_convert_next_file cfg env fuel
            { s2 with
              conversion_errors :=
                s2.conversion_errors ++ [(i, .readError msg)]
              current_conversion_index := i + 1 }
        | .ok _ =>
          { s2 with
            progress_bar := i * 100 / s2.total_files + 20 / s2.total_files
            load_connections := s2.load_connections + 1
            loads_emitted := s2.loads_emitted ++ [i]
            current_output_path := some i
            queue := s2.queue ++ [QtEvent.loadFinished i] }
      if env.output_exists i && cfg.confirm_overwrite then
        match env.overwrite_answer i with
        | .cancel => qt_finalize s1
        | .no =>
          qt_convert_next_file cfg env fuel
            { s1 with current_conversion_index := i + 1 }
        | .yes => tryLoad s1
      else tryLoad s1

/-- One failure-branch invocation of `on_html_loaded` (lines 1105-1110): the
file name is taken from the cursor (an `IndexError` — crash — when the
cursor is past the end), the load error is recorded, the cursor advances and
`convert_next_file` continues synchronously.  The signal connection is left
in place. -/
def qt_on_html_loaded_failure (cfg : ConversionConfig) (env : ConversionEnv)
    (s : QtState) : QtState :=
  let i := s.current_conversion_index
  if s.total_files ≤ i then { s with crashed := true }
  else
    qt_convert_next_file cfg env (s.total_files + 1)
      { s with
        conversion_errors := s.conversion_errors ++ [(i, .loadFailed)]
        current_conversion_index := i + 1 }

/-- The `k` successive failure invocations of one `loadFinished` emission
(one per connection live at the emission). -/
def qt_failure_invocations (cfg : ConversionConfig) (env : ConversionEnv) :
    Nat → QtState → QtState
  | 0, s => s
  | k + 1, s =>
    if s.crashed then s
    else qt_failure_invocations cfg env k
      (qt_on_html_loaded_failure cfg env s)

/-- Success branch of `on_html_loaded` (lines 1112-1122): disconnect all
connections, 40-percent progress step, schedule the render-settle timer. -/
def qt_on_html_loaded_success (s : QtState) : QtState :=
  let i := s.current_conversion_index
  { s with
    load_connections := 0
    progress_bar := i * 100 / s.total_files + 40 / s.total_files
    queue := s.queue ++ [QtEvent.settleTimer] }

/-- `generate_pdf` (lines 1130-1162): 60-percent progress step, print to the
path stored in `current_output_path`, schedule the first check with that
path.  A raising `printToPdf` records the error under the cursor's file name
(crash when the cursor is past the end) and continues. -/
def qt_generate_pdf (cfg : ConversionConfig) (env : ConversionEnv)
    (s : QtState) : QtState :=
  let i := s.current_conversion_index
  let s1 := { s with
    progress_bar := i * 100 / s.total_files + 60 / s.total_files }
  match s1.current_output_path with
  | none => s1
  | some p =>
    match env.print_raises p with
    | some msg =>
      if s1.total_files ≤ i then { s1 with crashed := true }
      else
        qt_convert_next_file cfg env (s1.total_files + 1)
          { s1 with
            conversion_errors :=
              s1.conversion_errors ++ [(i, .pdfGenError msg)]
            current_conversion_index := i + 1 }
    | none =>
      { s1 with
        printed_files := s1.printed_files ++ [p]
        queue := s1.queue ++ [QtEvent.checkFirstTimer p] }

/-- `on_single_conversion_finished(True, ...)` with its synchronous
`convert_next_file` continuation (lines 1211-1223). -/
def qt_single_finished (cfg : ConversionConfig) (env : ConversionEnv)
    (s : QtState) : QtState :=
  let i := s.current_conversion_index
  qt_convert_next_file cfg env (s.total_files + 1)
    { s with
      progress_bar := (i + 1) * 100 / s.total_files
      current_conversion_index := i + 1 }

/-- `check_pdf_generation` for the captured path (lines 1164-1176). -/
def qt_check_first (cfg : ConversionConfig) (env : ConversionEnv)
    (s : QtState) (p : Nat) : QtState :=
  match check_pdf_generation (env.fs_first p) with
  | .finishedSuccess => qt_single_finished cfg env s
  | .waitFinal => { s with queue := s.queue ++ [QtEvent.checkFinalTimer p] }

/-- `check_pdf_generation_final` for the captured path (lines 1183-1204).
All three branches name the file by the cursor (lines 1190, 1195, 1201), so
a cursor past the end crashes. -/
def qt_check_final (cfg : ConversionConfig) (env : ConversionEnv)
    (s : QtState) (p : Nat) : QtState :=
  let i := s.current_conversion_index
  if s.total_files ≤ i then { s with crashed := true }
  else
    match check_pdf_generation_final (env.fs_final p) with
    | .finishedSuccess => qt_single_finished cfg env s
    | .failed k =>
      qt_convert_next_file cfg env (s.total_files + 1)
        { s with
          conversion_errors := s.conversion_errors ++ [(i, k)]
          current_conversion_index := i + 1 }

/-- Deliver one pending callback (the Qt event loop).  A `loadFinished`
delivery snapshots the live connection count: on success the first
invocation's `disconnect()` cancels the rest, so the success branch runs
once (when any connection is live); on failure the failure branch runs once
per connection. -/
def qt_step (cfg : ConversionConfig) (env : ConversionEnv) (s : QtState) :
    QtState :=
  if s.crashed then s
  else
    match s.queue with
    | [] => s
    | e :: rest =>
      let s0 := { s with queue := rest }
      match e with
      | .loadFinished i =>
        if env.load_success i then
          if s0.load_connections = 0 then s0
          else qt_on_html_loaded_success s0
        else qt_failure_invocations cfg env s0.load_connections s0
      | .settleTimer => qt_generate_pdf cfg env s0
      | .checkFirstTimer p => qt_check_first cfg env s0 p
      | .checkFinalTimer p => qt_check_final cfg env s0 p

/-- State right after `convert_to_pdf` initialized the job
(lines 1033-1041). -/
def qt_init (N : Nat) : QtState :=
  { total_files := N
    current_conversion_index := 0
    conversion_errors := []
    progress_bar := 0
    load_connections := 0
    printed_files := []
    loads_emitted := []
    reported_success := none
    current_output_path := none
    queue := []
    done_count := 0
    crashed := false }

/-- A job under the signal-faithful semantics: `convert_to_pdf` runs the
first `convert_next_file` synchronously, then the event loop delivers the
pending callbacks one at a time. -/
def qt_run (cfg : ConversionConfig) (env : ConversionEnv) (N : Nat) :
    Nat → QtState
  | 0 => qt_convert_next_file cfg env (N + 1) (qt_init N)
  | n + 1 => qt_step cfg env (qt_run cfg env N n)

/-- Four files: the loads of files 0 and 1 report failure, the output of
file 2 already exists and the user answers Cancel there, file 3 loads fine
and its PDF appears. -/
def envCancelAfterStale : ConversionEnv :=
  { envAllOk with
    output_exists := fun i => i == 2
    overwrite_answer := fun i => if i == 2 then .cancel else .yes
    load_success := fun i => decide (2 ≤ i) }

/-- Three files whose first two loads report failure; file 2 loads fine and
its PDF appears with 2000 bytes at the first poll. -/
def envDoubleLoadFail : ConversionEnv :=
  { envAllOk with load_success := fun i => decide (2 ≤ i) }

/-! ## Theorems -/

theorem div_add_div_le (a b n : Nat) : a / n + b / n ≤ (a + b) / n := by
  rcases Nat.eq_zero_or_pos n with hn | hn
  · simp [hn]
  · rw [Nat.le_div_iff_mul_le hn, Nat.add_mul]
    exact Nat.add_le_add (Nat.div_mul_le_self a n) (Nat.div_mul_le_self b n)

theorem progress_step_le (N i a : Nat) (ha : a ≤ 100) :
    i * 100 / N + a / N ≤ (i + 1) * 100 / N := by
  calc i * 100 / N + a / N ≤ (i * 100 + a) / N := div_add_div_le _ _ _
    _ ≤ ((i + 1) * 100) / N := Nat.div_le_div_right (by omega)

theorem progress_le_100 (N i : Nat) (h : i ≤ N) : i * 100 / N ≤ 100 := by
  rcases Nat.eq_zero_or_pos N with hN | hN
  · subst hN
    interval_cases i
    simp
  · calc i * 100 / N ≤ N * 100 / N := Nat.div_le_div_right (by omega)
      _ = 100 := Nat.mul_div_cancel_left 100 hN

theorem progress_mid_le_100 (N i a : Nat) (h : i < N) (ha : a ≤ 100) :
    i * 100 / N + a / N ≤ 100 :=
  le_trans (progress_step_le N i a ha) (progress_le_100 N (i + 1) (by omega))

theorem conv_inv_init (N : Nat) : ConvInv N (initConversionState N) := by
  refine ⟨rfl, Nat.zero_le _, ?_, ?_, ?_, ?_, ?_, ?_, ?_⟩ <;>
    simp [initConversionState, progressSpec]

theorem pipeline_step_done (cfg : ConversionConfig) (env : ConversionEnv)
    (s : ConversionState) (h : s.phase = .done) :
    pipeline_step cfg env s = s := by
  obtain ⟨T, i, errs, prog, ph, conns, printed, loads, rep⟩ := s
  cases ph <;> simp_all [pipeline_step]

theorem stepIter_succ_r (cfg : ConversionConfig) (env : ConversionEnv) :
    ∀ (n : Nat) (s : ConversionState),
      stepIter cfg env (n + 1) s = pipeline_step cfg env (stepIter cfg env n s) := by
  intro n
  induction n with
  | zero => intro s; rfl
  | succ n ih =>
    intro s
    calc stepIter cfg env (n + 2) s
        = stepIter cfg env (n + 1) (pipeline_step cfg env s) := rfl
      _ = pipeline_step cfg env (stepIter cfg env (n + 1) s) :=
          ih (pipeline_step cfg env s)

theorem run_eq_stepIter (cfg : ConversionConfig) (env : ConversionEnv)
    (N : Nat) : ∀ m, pipeline_run cfg env N m =
      stepIter cfg env m (initConversionState N) := by
  intro m
  induction m with
  | zero => rfl
  | succ m ih =>
    rw [pipeline_run, ih, stepIter_succ_r]

theorem conv_inv_on_all (N i : Nat) (errs : List (Nat × ErrKind)) (prog : Nat)
    (ph : Phase) (conns : Nat) (printed loads : List Nat) (rep : Option Nat)
    (hle : i ≤ N)
    (herr : ∀ e ∈ errs, e.1 < i) (hlen : errs.length ≤ i)
    (hpr : ∀ x ∈ printed, x < i) (hld : ∀ x ∈ loads, x < i) :
    ConvInv N (on_all_conversions_finished
      ⟨N, i, errs, prog, ph, conns, printed, loads, rep⟩) := by
  refine ⟨rfl, hle, ?_, herr, hlen, ?_, ?_, ?_, ?_⟩
  · intro _ hd
    exact absurd rfl hd
  · exact fun x hx => Or.inl (hpr x hx)
  · exact fun x hx => Or.inl (hld x hx)
  · simp [on_all_conversions_finished, progressSpec]
  · exact fun _ => ⟨rfl, rfl⟩

theorem conv_inv_load_current_file (env : ConversionEnv) (N i : Nat)
    (errs : List (Nat × ErrKind)) (conns : Nat) (printed loads : List Nat)
    (rep : Option Nat)
    (hi : i < N)
    (herr : ∀ e ∈ errs, e.1 < i) (hlen : errs.length ≤ i)
    (hpr : ∀ x ∈ printed, x < i) (hld : ∀ x ∈ loads, x < i) :
    ConvInv N (load_current_file env
      ⟨N, i, errs, i * 100 / N, .nextFile, conns, printed, loads, rep⟩ i) := by
  unfold load_current_file
  try dsimp only
  split
  case h_1 msg heq =>
    try dsimp only
    refine ⟨rfl, by try dsimp only; omega, ?_, ?_, ?_, ?_, ?_, ?_, ?_⟩
    · intro h _
      exact absurd rfl h
    · intro e he
      rcases List.mem_append.mp he with h | h
      · exact Nat.lt_succ_of_lt (herr e h)
      · rw [List.mem_singleton] at h
        subst h
        exact Nat.lt_succ_self i
    · simp only [List.length_append, List.length_singleton]
      omega
    · exact fun x hx => Or.inl (Nat.lt_succ_of_lt (hpr x hx))
    · exact fun x hx => Or.inl (Nat.lt_succ_of_lt (hld x hx))
    · simp only [progressSpec]
      exact Nat.div_le_div_right (by omega)
    · intro hd
      exact absurd hd (by simp)
  case h_2 =>
    try dsimp only
    refine ⟨rfl, by try dsimp only; omega, fun _ _ => hi, herr, hlen, ?_, ?_, ?_, ?_⟩
    · exact fun x hx => Or.inl (hpr x hx)
    · intro x hx
      rcases List.mem_append.mp hx with h | h
      · exact Or.inl (hld x h)
      · rw [List.mem_singleton] at h
        subst h
        exact Or.inr ⟨rfl, by simp, by simp⟩
    · simp [progressSpec]
    · intro hd
      exact absurd hd (by simp)

theorem conv_inv_step (cfg : ConversionConfig) (env : ConversionEnv) (N : Nat)
    (s : ConversionState) (h : ConvInv N s) :
    ConvInv N (pipeline_step cfg env s) := by
  obtain ⟨hT, hle, hlt, herr, hlen, hpr, hld, hprog, hdone⟩ := h
  obtain ⟨T, i, errs, prog, ph, conns, printed, loads, rep⟩ := s
  simp only at hT hle hlt herr hlen hpr hld hdone
  subst T
  cases ph with
  | done =>
    simp only [pipeline_step]
    exact ⟨rfl, hle, hlt, herr, hlen, hpr, hld, hprog, hdone⟩
  | nextFile =>
    have hpr' : ∀ x ∈ printed, x < i := fun x hx => by
      rcases hpr x hx with h | ⟨_, h | h⟩
      · exact h
      · exact absurd h (by simp)
      · exact absurd h (by simp)
    have hld' : ∀ x ∈ loads, x < i := fun x hx => by
      rcases hld x hx with h | ⟨_, h, _⟩
      · exact h
      · exact absurd rfl h
    simp only [pipeline_step, convert_next_file]
    split
    case isTrue hN =>
      try dsimp only
      exact conv_inv_on_all N i errs prog _ conns printed loads rep hle
        herr hlen hpr' hld'
    case isFalse hN =>
      try dsimp only
      have hi : i < N := by omega
      split
      case isTrue =>
        try dsimp only
        split
        case h_1 =>
          try dsimp only
          exact conv_inv_on_all N i errs _ _ conns printed loads rep hle
            herr hlen hpr' hld'
        case h_2 =>
          try dsimp only
          refine ⟨rfl, by try dsimp only; omega, ?_, ?_, ?_, ?_, ?_, ?_, ?_⟩
          · intro h _
            exact absurd rfl h
          · exact fun e he => Nat.lt_succ_of_lt (herr e he)
          · exact Nat.le_succ_of_le hlen
          · exact fun x hx => Or.inl (Nat.lt_succ_of_lt (hpr' x hx))
          · exact fun x hx => Or.inl (Nat.lt_succ_of_lt (hld' x hx))
          · simp only [progressSpec]
            exact Nat.div_le_div_right (by omega)
          · intro hd
            exact absurd hd (by simp)
        case h_3 =>
          try dsimp only
          exact conv_inv_load_current_file env N i errs conns printed loads rep
            hi herr hlen hpr' hld'
      case isFalse =>
        try dsimp only
        exact conv_inv_load_current_file env N i errs conns printed loads rep
          hi herr hlen hpr' hld'
  | loading =>
    have hi : i < N := hlt (by simp) (by simp)
    have hprog' : prog = i * 100 / N + 20 / N := by
      simpa [progressSpec] using hprog
    have hpr' : ∀ x ∈ printed, x < i := fun x hx => by
      rcases hpr x hx with h | ⟨_, h | h⟩
      · exact h
      · exact absurd h (by simp)
      · exact absurd h (by simp)
    simp only [pipeline_step, on_html_loaded]
    split
    case isTrue =>
      try dsimp only
      refine ⟨rfl, hle, fun _ _ => hi, herr, hlen, ?_, ?_, ?_, ?_⟩
      · exact fun x hx => Or.inl (hpr' x hx)
      · intro x hx
        rcases hld x hx with h | ⟨h, _, _⟩
        · exact Or.inl h
        · exact Or.inr ⟨h, by simp, by simp⟩
      · simp [progressSpec]
      · intro hd
        exact absurd hd (by simp)
    case isFalse =>
      try dsimp only
      refine ⟨rfl, by try dsimp only; omega, ?_, ?_, ?_, ?_, ?_, ?_, ?_⟩
      · intro h _
        exact absurd rfl h
      · intro e he
        rcases List.mem_append.mp he with h | h
        · exact Nat.lt_succ_of_lt (herr e h)
        · rw [List.mem_singleton] at h
          subst h
          exact Nat.lt_succ_self i
      · simp only [List.length_append, List.length_singleton]
        omega
      · exact fun x hx => Or.inl (Nat.lt_succ_of_lt (hpr' x hx))
      · intro x hx
        rcases hld x hx with h | ⟨h, _, _⟩
        · exact Or.inl (Nat.lt_succ_of_lt h)
        · exact Or.inl (by try dsimp only; omega)
      · simp only [progressSpec]
        rw [hprog']
        exact progress_step_le N i 20 (by omega)
      · intro hd
        exact absurd hd (by simp)
  | settling =>
    have hi : i < N := hlt (by simp) (by simp)
    have hpr' : ∀ x ∈ printed, x < i := fun x hx => by
      rcases hpr x hx with h | ⟨_, h | h⟩
      · exact h
      · exact absurd h (by simp)
      · exact absurd h (by simp)
    have hld' : ∀ x ∈ loads, x ≤ i := fun x hx => by
      rcases hld x hx with h | ⟨h, _, _⟩ <;> omega
    simp only [pipeline_step, generate_pdf]
    split
    case h_1 msg heq =>
      try dsimp only
      refine ⟨rfl, by try dsimp only; omega, ?_, ?_, ?_, ?_, ?_, ?_, ?_⟩
      · intro h _
        exact absurd rfl h
      · intro e he
        rcases List.mem_append.mp he with h | h
        · exact Nat.lt_succ_of_lt (herr e h)
        · rw [List.mem_singleton] at h
          subst h
          exact Nat.lt_succ_self i
      · simp only [List.length_append, List.length_singleton]
        omega
      · exact fun x hx => Or.inl (Nat.lt_succ_of_lt (hpr' x hx))
      · exact fun x hx => Or.inl (by have := hld' x hx; try dsimp only; omega)
      · simp only [progressSpec]
        exact progress_step_le N i 60 (by omega)
      · intro hd
        exact absurd hd (by simp)
    case h_2 heq =>
      try dsimp only
      refine ⟨rfl, hle, fun _ _ => hi, herr, hlen, ?_, ?_, ?_, ?_⟩
      · intro x hx
        rcases List.mem_append.mp hx with h | h
        · exact Or.inl (hpr' x h)
        · rw [List.mem_singleton] at h
          subst h
          exact Or.inr ⟨rfl, Or.inl rfl⟩
      · intro x hx
        rcases hld x hx with h | ⟨h, _, _⟩
        · exact Or.inl h
        · exact Or.inr ⟨h, by simp, by simp⟩
      · simp [progressSpec]
      · intro hd
        exact absurd hd (by simp)
  | checking1 =>
    have hi : i < N := hlt (by simp) (by simp)
    have hprog' : prog = i * 100 / N + 60 / N := by
      simpa [progressSpec] using hprog
    have hpr' : ∀ x ∈ printed, x ≤ i := fun x hx => by
      rcases hpr x hx with h | ⟨h, _⟩ <;> omega
    have hld' : ∀ x ∈ loads, x ≤ i := fun x hx => by
      rcases hld x hx with h | ⟨h, _, _⟩ <;> omega
    simp only [pipeline_step, check_pdf_first]
    split
    case h_1 heq =>
      try dsimp only
      simp only [on_single_conversion_finished]
      refine ⟨rfl, by try dsimp only; omega, ?_, ?_, ?_, ?_, ?_, ?_, ?_⟩
      · intro h _
        exact absurd rfl h
      · exact fun e he => Nat.lt_succ_of_lt (herr e he)
      · exact Nat.le_succ_of_le hlen
      · exact fun x hx => Or.inl (by have := hpr' x hx; try dsimp only; omega)
      · exact fun x hx => Or.inl (by have := hld' x hx; try dsimp only; omega)
      · simp [progressSpec]
      · intro hd
        exact absurd hd (by simp)
    case h_2 heq =>
      try dsimp only
      refine ⟨rfl, hle, fun _ _ => hi, herr, hlen, ?_, ?_, ?_, ?_⟩
      · intro x hx
        rcases hpr x hx with h | ⟨h, _⟩
        · exact Or.inl h
        · exact Or.inr ⟨h, Or.inr rfl⟩
      · intro x hx
        rcases hld x hx with h | ⟨h, _, _⟩
        · exact Or.inl h
        · exact Or.inr ⟨h, by simp, by simp⟩
      · simpa [progressSpec] using hprog'
      · intro hd
        exact absurd hd (by simp)
  | checking2 =>
    have hi : i < N := hlt (by simp) (by simp)
    have hprog' : prog = i * 100 / N + 60 / N := by
      simpa [progressSpec] using hprog
    have hpr' : ∀ x ∈ printed, x ≤ i := fun x hx => by
      rcases hpr x hx with h | ⟨h, _⟩ <;> omega
    have hld' : ∀ x ∈ loads, x ≤ i := fun x hx => by
      rcases hld x hx with h | ⟨h, _, _⟩ <;> omega
    simp only [pipeline_step, check_pdf_final]
    split
    case h_1 heq =>
      try dsimp only
      simp only [on_single_conversion_finished]
      refine ⟨rfl, by try dsimp only; omega, ?_, ?_, ?_, ?_, ?_, ?_, ?_⟩
      · intro h _
        exact absurd rfl h
      · exact fun e he => Nat.lt_succ_of_lt (herr e he)
      · exact Nat.le_succ_of_le hlen
      · exact fun x hx => Or.inl (by have := hpr' x hx; try dsimp only; omega)
      · exact fun x hx => Or.inl (by have := hld' x hx; try dsimp only; omega)
      · simp [progressSpec]
      · intro hd
        exact absurd hd (by simp)
    case h_2 k heq =>
      try dsimp only
      refine ⟨rfl, by try dsimp only; omega, ?_, ?_, ?_, ?_, ?_, ?_, ?_⟩
      · intro h _
        exact absurd rfl h
      · intro e he
        rcases List.mem_append.mp he with h | h
        · exact Nat.lt_succ_of_lt (herr e h)
        · rw [List.mem_singleton] at h
          subst h
          exact Nat.lt_succ_self i
      · simp only [List.length_append, List.length_singleton]
        omega
      · exact fun x hx => Or.inl (by have := hpr' x hx; try dsimp only; omega)
      · exact fun x hx => Or.inl (by have := hld' x hx; try dsimp only; omega)
      · simp only [progressSpec]
        rw [hprog']
        exact progress_step_le N i 60 (by omega)
      · intro hd
        exact absurd hd (by simp)

theorem conv_inv_run (cfg : ConversionConfig) (env : ConversionEnv)
    (N : Nat) : ∀ n, ConvInv N (pipeline_run cfg env N n) := by
  intro n
  induction n with
  | zero => exact conv_inv_init N
  | succ n ih => exact conv_inv_step cfg env N _ ih

theorem conv_progress_le_100 (N : Nat) (s : ConversionState)
    (h : ConvInv N s) : s.progress_bar ≤ 100 := by
  obtain ⟨hT, hle, hlt, _, _, _, _, hprog, _⟩ := h
  obtain ⟨T, i, errs, prog, ph, conns, printed, loads, rep⟩ := s
  simp only at hle hlt ⊢
  cases ph with
  | nextFile =>
    simp only [progressSpec] at hprog
    exact le_trans hprog (progress_le_100 N i hle)
  | loading =>
    simp only [progressSpec] at hprog
    rw [hprog]
    exact progress_mid_le_100 N i 20 (hlt (by simp) (by simp)) (by omega)
  | settling =>
    simp only [progressSpec] at hprog
    rw [hprog]
    exact progress_mid_le_100 N i 40 (hlt (by simp) (by simp)) (by omega)
  | checking1 =>
    simp only [progressSpec] at hprog
    rw [hprog]
    exact progress_mid_le_100 N i 60 (hlt (by simp) (by simp)) (by omega)
  | checking2 =>
    simp only [progressSpec] at hprog
    rw [hprog]
    exact progress_mid_le_100 N i 60 (hlt (by simp) (by simp)) (by omega)
  | done =>
    simp only [progressSpec] at hprog
    omega

theorem progress_mono_step (cfg : ConversionConfig) (env : ConversionEnv)
    (N : Nat) (s : ConversionState) (h : ConvInv N s) :
    s.progress_bar ≤ (pipeline_step cfg env s).progress_bar := by
  obtain ⟨hT, hle, hlt, herr, hlen, hpr, hld, hprog, hdone⟩ := h
  obtain ⟨T, i, errs, prog, ph, conns, printed, loads, rep⟩ := s
  simp only at hT hle hlt ⊢
  subst T
  cases ph with
  | done => simp [pipeline_step]
  | nextFile =>
    simp only [progressSpec] at hprog
    have h100 : prog ≤ 100 := le_trans hprog (progress_le_100 N i hle)
    simp only [pipeline_step, convert_next_file]
    split
    case isTrue hN =>
      simpa [on_all_conversions_finished] using h100
    case isFalse hN =>
      split
      case isTrue =>
        split
        case h_1 =>
          simpa [on_all_conversions_finished] using h100
        case h_2 =>
          simpa using hprog
        case h_3 =>
          unfold load_current_file
          try dsimp only
          split
          case h_1 msg heq => simpa using hprog
          case h_2 => exact le_trans hprog (Nat.le_add_right _ _)
      case isFalse =>
        unfold load_current_file
        try dsimp only
        split
        case h_1 msg heq => simpa using hprog
        case h_2 => exact le_trans hprog (Nat.le_add_right _ _)
  | loading =>
    simp only [progressSpec] at hprog
    simp only [pipeline_step, on_html_loaded]
    split
    case isTrue =>
      try dsimp only
      rw [hprog]
      exact Nat.add_le_add_left (Nat.div_le_div_right (by omega)) _
    case isFalse =>
      try dsimp only
      exact le_refl prog
  | settling =>
    simp only [progressSpec] at hprog
    simp only [pipeline_step, generate_pdf]
    split <;>
      · try dsimp only
        rw [hprog]
        exact Nat.add_le_add_left (Nat.div_le_div_right (by omega)) _
  | checking1 =>
    simp only [progressSpec] at hprog
    simp only [pipeline_step, check_pdf_first]
    split
    case h_1 =>
      simp only [on_single_conversion_finished]
      try dsimp only
      rw [hprog]
      exact progress_step_le N i 60 (by omega)
    case h_2 =>
      try dsimp only
      exact le_refl prog
  | checking2 =>
    simp only [progressSpec] at hprog
    simp only [pipeline_step, check_pdf_final]
    split
    case h_1 =>
      simp only [on_single_conversion_finished]
      try dsimp only
      rw [hprog]
      exact progress_step_le N i 60 (by omega)
    case h_2 =>
      try dsimp only
      exact le_refl prog

theorem on_single_conversion_finished_true (s : ConversionState) :
    on_single_conversion_finished s true =
      { s with
        progress_bar := (s.current_conversion_index + 1) * 100 / s.total_files
        current_conversion_index := s.current_conversion_index + 1
        phase := .nextFile } := rfl

theorem jobMeasure_decreases (cfg : ConversionConfig) (env : ConversionEnv)
    (N : Nat) (s : ConversionState) (hinv : ConvInv N s)
    (h : s.phase ≠ .done) :
    jobMeasure (pipeline_step cfg env s) < jobMeasure s := by
  obtain ⟨hT, hle, hlt, _, _, _, _, _, _⟩ := hinv
  obtain ⟨T, i, errs, prog, ph, conns, printed, loads, rep⟩ := s
  simp only at hT hle hlt h
  subst T
  cases ph with
  | done => exact absurd rfl h
  | nextFile =>
    simp only [pipeline_step, convert_next_file]
    split
    case isTrue hN =>
      simp [on_all_conversions_finished, jobMeasure, phaseRank]
    case isFalse hN =>
      have hi : i < N := by omega
      split
      case isTrue =>
        split
        case h_1 =>
          simp [on_all_conversions_finished, jobMeasure, phaseRank]
        case h_2 =>
          simp only [jobMeasure, phaseRank]
          try dsimp only
          omega
        case h_3 =>
          unfold load_current_file
          try dsimp only
          split <;>
            · simp only [jobMeasure, phaseRank]
              try dsimp only
              omega
      case isFalse =>
        unfold load_current_file
        try dsimp only
        split <;>
          · simp only [jobMeasure, phaseRank]
            try dsimp only
            omega
  | loading =>
    have hi : i < N := hlt (by simp) (by simp)
    simp only [pipeline_step, on_html_loaded]
    split <;>
      · simp only [jobMeasure, phaseRank]
        try dsimp only
        omega
  | settling =>
    have hi : i < N := hlt (by simp) (by simp)
    simp only [pipeline_step, generate_pdf]
    split <;>
      · simp only [jobMeasure, phaseRank]
        try dsimp only
        omega
  | checking1 =>
    have hi : i < N := hlt (by simp) (by simp)
    simp only [pipeline_step, check_pdf_first]
    split
    case h_1 =>
      simp only [on_single_conversion_finished_true, jobMeasure, phaseRank]
      try dsimp only
      omega
    case h_2 =>
      simp only [jobMeasure, phaseRank]
      try dsimp only
      omega
  | checking2 =>
    have hi : i < N := hlt (by simp) (by simp)
    simp only [pipeline_step, check_pdf_final]
    split
    case h_1 =>
      simp only [on_single_conversion_finished_true, jobMeasure, phaseRank]
      try dsimp only
      omega
    case h_2 =>
      simp only [jobMeasure, phaseRank]
      try dsimp only
      omega

theorem reaches_done_from (cfg : ConversionConfig) (env : ConversionEnv)
    (N : Nat) :
    ∀ (k : Nat) (s : ConversionState), ConvInv N s → jobMeasure s ≤ k →
      ∃ m, (stepIter cfg env m s).phase = .done := by
  intro k
  induction k with
  | zero =>
    intro s hinv hm
    by_cases hd : s.phase = .done
    · exact ⟨0, hd⟩
    · exfalso
      have h1 : 1 ≤ phaseRank s.phase := by
        cases hph : s.phase <;> simp_all [phaseRank]
      have : 1 ≤ jobMeasure s := le_trans h1 (Nat.le_add_left _ _)
      omega
  | succ k ih =>
    intro s hinv hm
    by_cases hd : s.phase = .done
    · exact ⟨0, hd⟩
    · have hdec := jobMeasure_decreases cfg env N s hinv hd
      obtain ⟨m, hm'⟩ := ih (pipeline_step cfg env s)
        (conv_inv_step cfg env N s hinv) (by omega)
      exact ⟨m + 1, hm'⟩

theorem run_reaches_done (cfg : ConversionConfig) (env : ConversionEnv)
    (N : Nat) : ∃ n, (pipeline_run cfg env N n).phase = .done := by
  obtain ⟨m, hm⟩ := reaches_done_from cfg env N
    (jobMeasure (initConversionState N)) (initConversionState N)
    (conv_inv_init N) (le_refl _)
  exact ⟨m, by rw [run_eq_stepIter]; exact hm⟩

theorem pySplitFuel_ne_nil (old : List Char) :
    ∀ (f : Nat) (s : List Char), pySplitFuel old f s ≠ [] := by
  intro f
  induction f with
  | zero => intro s; cases s <;> simp [pySplitFuel]
  | succ f ih =>
    intro s
    cases s with
    | nil => simp [pySplitFuel]
    | cons c t =>
      simp only [pySplitFuel]
      split
      · simp
      · split <;> simp

theorem pySplitFuel_head_prefix (old : List Char) :
    ∀ (f : Nat) (s p : List Char) (ps : List (List Char)),
      pySplitFuel old f s = p :: ps → p <+: s := by
  intro f
  induction f with
  | zero =>
    intro s p ps h
    cases s with
    | nil =>
      simp only [pySplitFuel] at h
      injection h with h1 _
      subst h1
      exact List.nil_prefix
    | cons c t =>
      simp only [pySplitFuel] at h
      injection h with h1 _
      subst h1
      exact List.prefix_refl _
  | succ f ih =>
    intro s p ps h
    cases s with
    | nil =>
      simp only [pySplitFuel] at h
      injection h with h1 _
      subst h1
      exact List.nil_prefix
    | cons c t =>
      simp only [pySplitFuel] at h
      by_cases hc : old ≠ [] ∧ old.isPrefixOf (c :: t)
      · rw [if_pos hc] at h
        injection h with h1 _
        subst h1
        exact List.nil_prefix
      · rw [if_neg hc] at h
        rcases hq : pySplitFuel old f t with _ | ⟨q, qs⟩
        · exact absurd hq (pySplitFuel_ne_nil old f t)
        · rw [hq] at h
          injection h with h1 _
          subst h1
          obtain ⟨r, hr⟩ := ih t q qs hq
          exact ⟨r, by rw [List.cons_append, hr]⟩

theorem pyReplaceFuel_eq_joinSep (old new : List Char) :
    ∀ (f : Nat) (s : List Char), s.length ≤ f →
      pyReplaceFuel old new f s = joinSep new (pySplitFuel old f s) := by
  intro f
  induction f with
  | zero =>
    intro s hs
    have h0 : s = [] := List.length_eq_zero.mp (Nat.le_zero.mp hs)
    subst h0
    simp [pyReplaceFuel, pySplitFuel, joinSep]
  | succ f ih =>
    intro s hs
    cases s with
    | nil => simp [pyReplaceFuel, pySplitFuel, joinSep]
    | cons c t =>
      have hst : t.length + 1 ≤ f + 1 := by simpa using hs
      simp only [pyReplaceFuel, pySplitFuel]
      by_cases hc : old ≠ [] ∧ old.isPrefixOf (c :: t)
      · rw [if_pos hc, if_pos hc]
        have hop : 0 < old.length := List.length_pos.mpr hc.1
        have hlen : ((c :: t).drop old.length).length ≤ f := by
          rw [List.length_drop]
          simp only [List.length_cons]
          omega
        rw [ih _ hlen]
        rcases hq : pySplitFuel old f ((c :: t).drop old.length) with _ | ⟨q, qs⟩
        · exact absurd hq (pySplitFuel_ne_nil old f _)
        · simp [joinSep]
      · rw [if_neg hc, if_neg hc]
        have hlen : t.length ≤ f := by omega
        rw [ih t hlen]
        rcases hq : pySplitFuel old f t with _ | ⟨q, qs⟩
        · exact absurd hq (pySplitFuel_ne_nil old f t)
        · cases qs with
          | nil => simp [joinSep]
          | cons q2 qs2 => simp [joinSep]

theorem pySplitFuel_length_eq (old : List Char) :
    ∀ (f : Nat) (s : List Char), s.length ≤ f →
      (pySplitFuel old f s).length = countOccFuel old f s + 1 := by
  intro f
  induction f with
  | zero =>
    intro s hs
    have h0 : s = [] := List.length_eq_zero.mp (Nat.le_zero.mp hs)
    subst h0
    simp [pySplitFuel, countOccFuel]
  | succ f ih =>
    intro s hs
    cases s with
    | nil => simp [pySplitFuel, countOccFuel]
    | cons c t =>
      have hst : t.length + 1 ≤ f + 1 := by simpa using hs
      simp only [pySplitFuel, countOccFuel]
      by_cases hc : old ≠ [] ∧ old.isPrefixOf (c :: t)
      · rw [if_pos hc, if_pos hc]
        have hop : 0 < old.length := List.length_pos.mpr hc.1
        have hlen : ((c :: t).drop old.length).length ≤ f := by
          rw [List.length_drop]
          simp only [List.length_cons]
          omega
        simp [ih _ hlen]
      · rw [if_neg hc, if_neg hc]
        have hlen : t.length ≤ f := by omega
        rcases hq : pySplitFuel old f t with _ | ⟨q, qs⟩
        · exact absurd hq (pySplitFuel_ne_nil old f t)
        · have := ih t hlen
          rw [hq] at this
          simpa using this

theorem pySplitFuel_pieces_free (old : List Char) :
    ∀ (f : Nat) (s : List Char), s.length ≤ f →
      ∀ p ∈ pySplitFuel old f s, countOcc old p = 0 := by
  intro f
  induction f with
  | zero =>
    intro s hs p hp
    have h0 : s = [] := List.length_eq_zero.mp (Nat.le_zero.mp hs)
    subst h0
    simp only [pySplitFuel, List.mem_singleton] at hp
    subst hp
    simp [countOcc, countOccFuel]
  | succ f ih =>
    intro s hs p hp
    cases s with
    | nil =>
      simp only [pySplitFuel, List.mem_singleton] at hp
      subst hp
      simp [countOcc, countOccFuel]
    | cons c t =>
      have hst : t.length + 1 ≤ f + 1 := by simpa using hs
      simp only [pySplitFuel] at hp
      by_cases hc : old ≠ [] ∧ old.isPrefixOf (c :: t)
      · rw [if_pos hc] at hp
        have hop : 0 < old.length := List.length_pos.mpr hc.1
        have hlen : ((c :: t).drop old.length).length ≤ f := by
          rw [List.length_drop]
          simp only [List.length_cons]
          omega
        rcases List.mem_cons.mp hp with h | h
        · subst h
          simp [countOcc, countOccFuel]
        · exact ih _ hlen p h
      · rw [if_neg hc] at hp
        have hlen : t.length ≤ f := by omega
        rcases hq : pySplitFuel old f t with _ | ⟨q, qs⟩
        · exact absurd hq (pySplitFuel_ne_nil old f t)
        · rw [hq] at hp
          rcases List.mem_cons.mp hp with h | h
          · subst h
            have hq_free : countOcc old q = 0 :=
              ih t hlen q (by rw [hq]; exact List.mem_cons_self q qs)
            have hqpre : q <+: t := pySplitFuel_head_prefix old f t q qs hq
            have hnp : ¬(old ≠ [] ∧ old.isPrefixOf (c :: q)) := by
              rintro ⟨ho, hpre⟩
              apply hc
              refine ⟨ho, ?_⟩
              rw [ List.isPrefixOf_iff_prefix] at hpre ⊢
              refine hpre.trans ?_
              obtain ⟨r, hr⟩ := hqpre
              exact ⟨r, by rw [List.cons_append, hr]⟩
            simp only [countOcc, List.length_cons, countOccFuel]
            rw [if_neg hnp]
            exact hq_free
          · exact ih t hlen p (by rw [hq]; exact List.mem_cons_of_mem q h)

theorem pyReplace_eq_joinSep (old new s : List Char) :
    pyReplace old new s = joinSep new (pySplit old s) :=
  pyReplaceFuel_eq_joinSep old new s.length s (le_refl _)

theorem pySplit_length_eq (old s : List Char) :
    (pySplit old s).length = countOcc old s + 1 :=
  pySplitFuel_length_eq old s.length s (le_refl _)

theorem pySplit_pieces_free (old s : List Char) :
    ∀ p ∈ pySplit old s, countOcc old p = 0 :=
  pySplitFuel_pieces_free old s.length s (le_refl _)

theorem pipeline_run_frozen (cfg : ConversionConfig) (env : ConversionEnv)
    (N n : Nat) (h : (pipeline_run cfg env N n).phase = .done) :
    ∀ m, pipeline_run cfg env N (n + m) = pipeline_run cfg env N n := by
  intro m
  induction m with
  | zero => rfl
  | succ m ih =>
    calc pipeline_run cfg env N (n + (m + 1))
        = pipeline_step cfg env (pipeline_run cfg env N (n + m)) := rfl
      _ = pipeline_step cfg env (pipeline_run cfg env N n) := by rw [ih]
      _ = pipeline_run cfg env N n := pipeline_step_done cfg env _ h

theorem pipeline_step_nextFile (cfg : ConversionConfig) (env : ConversionEnv)
    (s : ConversionState) (h : s.phase = .nextFile) :
    pipeline_step cfg env s = convert_next_file cfg env s := by
  obtain ⟨T, i, errs, prog, ph, conns, printed, loads, rep⟩ := s
  simp only at h
  subst h
  rfl

theorem pipeline_step_index (cfg : ConversionConfig) (env : ConversionEnv)
    (s : ConversionState) :
    (pipeline_step cfg env s).current_conversion_index =
        s.current_conversion_index
    ∨ (pipeline_step cfg env s).current_conversion_index =
        s.current_conversion_index + 1 := by
  obtain ⟨T, i, errs, prog, ph, conns, printed, loads, rep⟩ := s
  cases ph with
  | done => exact Or.inl rfl
  | nextFile =>
    simp only [pipeline_step]
    unfold convert_next_file
    try dsimp only
    split
    · exact Or.inl rfl
    · split
      · split
        · exact Or.inl rfl
        · exact Or.inr rfl
        · unfold load_current_file
          split
          · exact Or.inr rfl
          · exact Or.inl rfl
      · unfold load_current_file
        split
        · exact Or.inr rfl
        · exact Or.inl rfl
  | loading =>
    simp only [pipeline_step]
    unfold on_html_loaded
    try dsimp only
    split
    · exact Or.inl rfl
    · exact Or.inr rfl
  | settling =>
    simp only [pipeline_step]
    unfold generate_pdf
    try dsimp only
    split
    · exact Or.inr rfl
    · exact Or.inl rfl
  | checking1 =>
    simp only [pipeline_step]
    unfold check_pdf_first
    try dsimp only
    split
    · exact Or.inr rfl
    · exact Or.inl rfl
  | checking2 =>
    simp only [pipeline_step]
    unfold check_pdf_final
    try dsimp only
    split
    · exact Or.inr rfl
    · exact Or.inr rfl

theorem pipeline_step_at_end (cfg : ConversionConfig) (env : ConversionEnv)
    (N : Nat) (s : ConversionState) (hinv : ConvInv N s)
    (h : s.current_conversion_index = N) :
    (pipeline_step cfg env s).phase = .done := by
  obtain ⟨hT, hle, hlt, _, _, _, _, _, _⟩ := hinv
  obtain ⟨T, i, errs, prog, ph, conns, printed, loads, rep⟩ := s
  simp only at hT hlt h
  subst T
  subst h
  cases ph with
  | done => rfl
  | nextFile =>
    simp [pipeline_step, convert_next_file, on_all_conversions_finished]
  | loading => exact absurd (hlt (by simp) (by simp)) (by omega)
  | settling => exact absurd (hlt (by simp) (by simp)) (by omega)
  | checking1 => exact absurd (hlt (by simp) (by simp)) (by omega)
  | checking2 => exact absurd (hlt (by simp) (by simp)) (by omega)

theorem pipeline_step_errors (cfg : ConversionConfig) (env : ConversionEnv)
    (s : ConversionState)
    (h : (pipeline_step cfg env s).conversion_errors ≠ s.conversion_errors) :
    (∃ e, (pipeline_step cfg env s).conversion_errors =
        s.conversion_errors ++ [e])
    ∧ (pipeline_step cfg env s).current_conversion_index =
        s.current_conversion_index + 1
    ∧ (pipeline_step cfg env s).phase = .nextFile := by
  obtain ⟨T, i, errs, prog, ph, conns, printed, loads, rep⟩ := s
  cases ph with
  | done => exact absurd rfl h
  | nextFile =>
    revert h
    simp only [pipeline_step]
    unfold convert_next_file
    try dsimp only
    split
    · intro h
      exact absurd rfl h
    · split
      · split
        · intro h
          exact absurd rfl h
        · intro h
          exact absurd rfl h
        · unfold load_current_file
          try dsimp only
          split
          · intro _
            exact ⟨⟨_, rfl⟩, rfl, rfl⟩
          · intro h
            exact absurd rfl h
      · unfold load_current_file
        try dsimp only
        split
        · intro _
          exact ⟨⟨_, rfl⟩, rfl, rfl⟩
        · intro h
          exact absurd rfl h
  | loading =>
    revert h
    simp only [pipeline_step]
    unfold on_html_loaded
    try dsimp only
    split
    · intro h
      exact absurd rfl h
    · intro _
      exact ⟨⟨_, rfl⟩, rfl, rfl⟩
  | settling =>
    revert h
    simp only [pipeline_step]
    unfold generate_pdf
    try dsimp only
    split
    · intro _
      exact ⟨⟨_, rfl⟩, rfl, rfl⟩
    · intro h
      exact absurd rfl h
  | checking1 =>
    revert h
    simp only [pipeline_step]
    unfold check_pdf_first
    try dsimp only
    split
    · intro h
      exact absurd rfl h
    · intro h
      exact absurd rfl h
  | checking2 =>
    revert h
    simp only [pipeline_step]
    unfold check_pdf_final
    try dsimp only
    split
    · intro h
      exact absurd rfl h
    · intro _
      exact ⟨⟨_, rfl⟩, rfl, rfl⟩

theorem pipeline_step_to_done (cfg : ConversionConfig) (env : ConversionEnv)
    (s : ConversionState)
    (h1 : s.phase ≠ .done) (h2 : (pipeline_step cfg env s).phase = .done) :
    s.total_files ≤ s.current_conversion_index
    ∨ (env.output_exists s.current_conversion_index = true
       ∧ cfg.confirm_overwrite = true
       ∧ env.overwrite_answer s.current_conversion_index = .cancel) := by
  obtain ⟨T, i, errs, prog, ph, conns, printed, loads, rep⟩ := s
  cases ph with
  | done => exact absurd rfl h1
  | nextFile =>
    revert h2
    simp only [pipeline_step]
    unfold convert_next_file
    try dsimp only
    split
    case isTrue hN => exact fun _ => Or.inl hN
    case isFalse hN =>
      split
      case isTrue hcond =>
        split
        case h_1 heq =>
          intro _
          rcases (Bool.and_eq_true _ _).mp hcond with ⟨hc1, hc2⟩
          exact Or.inr ⟨hc1, hc2, heq⟩
        case h_2 heq =>
          intro h2
          simp at h2
        case h_3 heq =>
          unfold load_current_file
          try dsimp only
          split
          · intro h2
            simp at h2
          · intro h2
            simp at h2
      case isFalse hcond =>
        unfold load_current_file
        try dsimp only
        split
        · intro h2
          simp at h2
        · intro h2
          simp at h2
  | loading =>
    revert h2
    simp only [pipeline_step]
    unfold on_html_loaded
    try dsimp only
    split
    · intro h2
      simp at h2
    · intro h2
      simp at h2
  | settling =>
    revert h2
    simp only [pipeline_step]
    unfold generate_pdf
    try dsimp only
    split
    · intro h2
      simp at h2
    · intro h2
      simp at h2
  | checking1 =>
    revert h2
    simp only [pipeline_step]
    unfold check_pdf_first
    try dsimp only
    split
    · intro h2
      simp [on_single_conversion_finished_true] at h2
    · intro h2
      simp at h2
  | checking2 =>
    revert h2
    simp only [pipeline_step]
    unfold check_pdf_final
    try dsimp only
    split
    · intro h2
      simp [on_single_conversion_finished_true] at h2
    · intro h2
      simp at h2

theorem countOccFuel_pos_of_decomp (old : List Char) (ho : old ≠ []) :
    ∀ (f : Nat) (s : List Char), s.length ≤ f →
      (∃ x y, s = x ++ old ++ y) → 0 < countOccFuel old f s := by
  have hop : 0 < old.length := List.length_pos.mpr ho
  intro f
  induction f with
  | zero =>
    intro s hs hex
    obtain ⟨x, y, hxy⟩ := hex
    have h0 : s = [] := List.length_eq_zero.mp (Nat.le_zero.mp hs)
    subst h0
    have hlen := congrArg List.length hxy
    simp only [List.length_nil, List.length_append] at hlen
    omega
  | succ f ih =>
    intro s hs hex
    obtain ⟨x, y, hxy⟩ := hex
    cases s with
    | nil =>
      have hlen := congrArg List.length hxy
      simp only [List.length_nil, List.length_append] at hlen
      omega
    | cons c t =>
      simp only [countOccFuel]
      by_cases hc : old ≠ [] ∧ old.isPrefixOf (c :: t)
      · rw [if_pos hc]
        omega
      · rw [if_neg hc]
        cases x with
        | nil =>
          exfalso
          apply hc
          refine ⟨ho, ?_⟩
          rw [ List.isPrefixOf_iff_prefix]
          exact ⟨y, by simpa using hxy.symm⟩
        | cons c2 x2 =>
          have hxy2 : t = x2 ++ old ++ y := by
            have h' := hxy
            simp only [List.cons_append, List.cons.injEq] at h'
            exact h'.2
          have hst : t.length ≤ f := by
            have := hs
            simp only [List.length_cons] at this
            omega
          exact ih t hst ⟨x2, y, hxy2⟩

theorem countOcc_pos_middle (old a m b : List Char) (ho : old ≠ [])
    (hdec : ∃ x y, m = x ++ old ++ y) :
    0 < countOcc old (a ++ m ++ b) := by
  obtain ⟨x, y, hxy⟩ := hdec
  refine countOccFuel_pos_of_decomp old ho _ _ (le_refl _) ?_
  refine ⟨a ++ x, y ++ b, ?_⟩
  rw [hxy]
  simp [List.append_assoc]

/-! ## Claims -/

/-- C1 (amended).  The renderer substitutes the page-break marker into the
raw Markdown before Markdown-to-HTML conversion.  The substitution has Python
`str.replace` semantics: the substituted text is the sequence of marker-free
segments of the input joined by one `pageBreakDiv` per left-to-right
non-overlapping occurrence of the marker (`countOcc`), and no retained
segment of the original text contains the marker.  (As stated, the original
claim is false: the produced HTML can contain the raw marker string — see the
counterexample, where the marker `"div"` occurs inside the inserted
page-break element itself — and overlapping marker occurrences are replaced
only once per non-overlapping occurrence.) -/
theorem C1_page_break_substitution :
    (∀ (md_convert : List String → String → String) (st : RenderState)
        (content : String),
        markdown_to_html md_convert st content =
          htmlTemplate (md_convert (activeExtensions st.include_toc)
            (pyReplaceStr content
              (effectiveMarker st.pagebreak_input st.page_break_marker)
              pageBreakDiv)))
    ∧ ∀ (marker text : List Char), marker ≠ [] →
        pyReplace marker pageBreakDiv.data text =
            joinSep pageBreakDiv.data (pySplit marker text)
        ∧ (pySplit marker text).length = countOcc marker text + 1
        ∧ ∀ p ∈ pySplit marker text, countOcc marker p = 0 := by
  constructor
  · intro md_convert st content
    rfl
  · intro marker text _
    exact ⟨pyReplace_eq_joinSep marker pageBreakDiv.data text,
      pySplit_length_eq marker text, pySplit_pieces_free marker text⟩

/-- Witness for C1: marker `"mm"`, input `"a mm b mm c"` — three segments,
two occurrences, each segment marker-free. -/
theorem C1_page_break_substitution_witness :
    (("mm".data : List Char) ≠ [])
    ∧ (pySplit "mm".data "a mm b mm c".data).length =
        countOcc "mm".data "a mm b mm c".data + 1
    ∧ countOcc "mm".data "a mm b mm c".data = 2 :=
  ⟨by decide,
    (C1_page_break_substitution.2 "mm".data "a mm b mm c".data
      (by decide)).2.1,
    by decide⟩

/-- Counterexample to C1 as stated: with marker `"div"` and Markdown input
`"div"`, the substitution replaces the single occurrence by the page-break
element, but that element itself spells `"div"` twice, so the text handed to
conversion — and the HTML document, whose fixed template also contains
`"div"` — contains the raw marker string; the claimed count of zero raw
occurrences is violated (indeed it is unsatisfiable together with the
requirement of one page-break `div` element). -/
theorem C1_counterexample :
    pyReplaceStr "div" "div" pageBreakDiv = pageBreakDiv
    ∧ countOcc ("div".data) pageBreakDiv.data = 2
    ∧ 0 < countOcc ("div".data)
        ((markdown_to_html idConvert stMarkerDiv "div").data) := by
  refine ⟨by decide, by decide, ?_⟩
  have h1 : markdown_to_html idConvert stMarkerDiv "div" =
      templatePrefix ++ pageBreakDiv ++ templateSuffix := by
    unfold markdown_to_html
    try dsimp only
    rw [show effectiveMarker stMarkerDiv.pagebreak_input
          stMarkerDiv.page_break_marker = "div" from by decide]
    rw [show pyReplaceStr "div" "div" pageBreakDiv = pageBreakDiv
          from by decide]
    rfl
  rw [h1, String.data_append, String.data_append]
  refine countOcc_pos_middle "div".data templatePrefix.data pageBreakDiv.data
    templateSuffix.data (by decide) ?_
  exact ⟨"<".data,
    " class=\"page-break\" style=\"page-break-after: always;\"></div>".data,
    by decide⟩

/-- C2.  The output verification polls the filesystem after the print call
(first check after 10 s, grace check after a further 5 s).  For a stable
file state the recorded outcome is exactly: missing file — the
"PDF file was not generated" error; existing empty file — the
"PDF file is empty (0 bytes)" error; existing nonzero file — success.
Moreover whenever the final poll sees a nonzero file the outcome is success
whatever the first poll saw.  (The first poll alone uses the stricter
`size > 1024` test, but it never records a failure — it only defers to the
final poll, so the recorded outcome matches the `exists ∧ size > 0`
criterion.) -/
theorem C2_pdf_verification :
    (firstCheckDelayMs = 10000 ∧ graceCheckDelayMs = 5000)
    ∧ (∀ p : Option Nat,
        pdfVerificationOutcome p p =
          match p with
          | none => .failed .pdfNotGenerated
          | some 0 => .failed .pdfEmpty
          | some (_ + 1) => .finishedSuccess)
    ∧ (∀ (fsFirst : Option Nat) (sz : Nat), 0 < sz →
        pdfVerificationOutcome fsFirst (some sz) = .finishedSuccess) := by
  refine ⟨⟨rfl, rfl⟩, ?_, ?_⟩
  · intro p
    match p with
    | none => rfl
    | some 0 => rfl
    | some (sz + 1) =>
      simp only [pdfVerificationOutcome, check_pdf_generation,
        check_pdf_generation_final]
      split
      · rfl
      · rw [if_pos (Nat.succ_pos sz)]
  · intro fsFirst sz hsz
    rcases fsFirst with _ | s1
    · simp [pdfVerificationOutcome, check_pdf_generation,
        check_pdf_generation_final, hsz]
    · simp only [pdfVerificationOutcome, check_pdf_generation]
      split
      · rfl
      · simp [check_pdf_generation_final, hsz]

/-- Witness for C2: a 500-byte file (below the first poll's 1 KB bar) is
still recorded a success, and a missing file is recorded as
"PDF file was not generated". -/
theorem C2_pdf_verification_witness :
    (0 < 500)
    ∧ pdfVerificationOutcome (some 500) (some 500) = .finishedSuccess
    ∧ pdfVerificationOutcome none none = .failed .pdfNotGenerated :=
  ⟨by decide, C2_pdf_verification.2.2 (some 500) 500 (by decide),
    C2_pdf_verification.2.1 none⟩

/-- C4 is a code bug.  The claim (and the spec) say the load-finished signal
is consumed exactly once per emitted HTML load on both branches, but
`on_html_loaded`'s failure branch returns without disconnecting
`loadFinished`; the next `convert_next_file` connects the handler again, so
when the second file's load is emitted two connections are live and Qt will
invoke the handler twice for that one signal.  In the model: after file 0's
load fails (2 files total), the stale connection survives (still 1 after the
failure step), and at the emission of file 1's load the connection count is
2, not 1. -/
theorem C4_duplicate_load_connection :
    (pipeline_run cfgNoConfirm envLoadFailAt0 2 2).load_connections = 1
    ∧ (pipeline_run cfgNoConfirm envLoadFailAt0 2 2).conversion_errors =
        [(0, ErrKind.loadFailed)]
    ∧ (pipeline_run cfgNoConfirm envLoadFailAt0 2 3).phase = .loading
    ∧ (pipeline_run cfgNoConfirm envLoadFailAt0 2 3).loads_emitted = [0, 1]
    ∧ (pipeline_run cfgNoConfirm envLoadFailAt0 2 3).load_connections = 2 := by
  refine ⟨?_, ?_, ?_, ?_, ?_⟩ <;> decide

/-- C5.  The renderer is a pure function of the (marker text, default
marker, include-TOC) configuration and the Markdown text: two converter
states that agree on those three inputs produce byte-identical HTML for the
same text, whatever their other mutable attributes; in the embedding the
renderer touches no state at all. -/
theorem C5_renderer_deterministic
    (md_convert : List String → String → String) (s1 s2 : RenderState)
    (content : String)
    (h1 : s1.pagebreak_input = s2.pagebreak_input)
    (h2 : s1.page_break_marker = s2.page_break_marker)
    (h3 : s1.include_toc = s2.include_toc) :
    markdown_to_html md_convert s1 content =
      markdown_to_html md_convert s2 content := by
  unfold markdown_to_html effectiveMarker
  rw [h1, h2, h3]

/-- Witness for C5: `stA` and `stB` differ in the selected-file index and the
output folder but agree on the renderer inputs. -/
theorem C5_renderer_deterministic_witness :
    stA.pagebreak_input = stB.pagebreak_input
    ∧ stA.page_break_marker = stB.page_break_marker
    ∧ stA.include_toc = stB.include_toc
    ∧ stA.current_file_index ≠ stB.current_file_index
    ∧ markdown_to_html idConvert stA "# title" =
        markdown_to_html idConvert stB "# title" :=
  ⟨rfl, rfl, rfl, by decide,
    C5_renderer_deterministic idConvert stA stB "# title" rfl rfl rfl⟩

/-- C10.  An empty configured page-break marker falls back to the default
marker `"<!-- pagebreak -->"` (Python `or` on a falsy string) instead of an
empty-string replacement, so rendering with an empty marker field equals
rendering with the default marker, for every input and conversion
function. -/
theorem C10_empty_marker_fallback :
    (∀ d : String, effectiveMarker "" d = d)
    ∧ ∀ (md_convert : List String → String → String) (s : RenderState)
        (content : String),
        s.pagebreak_input = "" →
        s.page_break_marker = defaultPageBreakMarker →
        markdown_to_html md_convert s content =
          markdown_to_html md_convert
            { s with pagebreak_input := defaultPageBreakMarker } content := by
  constructor
  · intro d
    rfl
  · intro md_convert s content h1 h2
    unfold markdown_to_html effectiveMarker
    rw [h1, h2]
    try dsimp only
    rw [if_pos (rfl : ("" : String) = ""), ite_self]

/-- Witness for C10: the state with empty marker field renders like the
default marker. -/
theorem C10_empty_marker_fallback_witness :
    stEmptyMarker.pagebreak_input = ""
    ∧ stEmptyMarker.page_break_marker = defaultPageBreakMarker
    ∧ effectiveMarker "" defaultPageBreakMarker = defaultPageBreakMarker
    ∧ markdown_to_html idConvert stEmptyMarker "text <!-- pagebreak --> more" =
        markdown_to_html idConvert
          { stEmptyMarker with pagebreak_input := defaultPageBreakMarker }
          "text <!-- pagebreak --> more" :=
  ⟨rfl, rfl, C10_empty_marker_fallback.1 defaultPageBreakMarker,
    C10_empty_marker_fallback.2 idConvert stEmptyMarker
      "text <!-- pagebreak --> more" rfl rfl⟩

/-- Cancel and skip under the single-dispatch semantics (the intended
behavior; the program only realizes it while no stale `loadFinished`
connection is live; the C3 entry documents the violation the C4 bug causes).  Cancel at file `j` finalizes in the same step with the state
frozen forever, no error for the tail and all prints/loads before `j`; No
(skip) advances the cursor without emitting a load. -/
theorem cancel_and_skip_single_dispatch (cfg : ConversionConfig)
    (env : ConversionEnv) (N n j : Nat)
    (hphase : (pipeline_run cfg env N n).phase = .nextFile)
    (hidx : (pipeline_run cfg env N n).current_conversion_index = j)
    (hj : j < N)
    (hex : env.output_exists j = true)
    (hconf : cfg.confirm_overwrite = true) :
    (env.overwrite_answer j = .cancel →
        (pipeline_run cfg env N (n + 1)).phase = .done
      ∧ (pipeline_run cfg env N (n + 1)).conversion_errors =
          (pipeline_run cfg env N n).conversion_errors
      ∧ (∀ e ∈ (pipeline_run cfg env N (n + 1)).conversion_errors, e.1 < j)
      ∧ (∀ x ∈ (pipeline_run cfg env N (n + 1)).printed_files, x < j)
      ∧ (∀ x ∈ (pipeline_run cfg env N (n + 1)).loads_emitted, x < j)
      ∧ ∀ m, pipeline_run cfg env N (n + 1 + m) = pipeline_run cfg env N (n + 1))
    ∧ (env.overwrite_answer j = .no →
        (pipeline_run cfg env N (n + 1)).current_conversion_index = j + 1
      ∧ (pipeline_run cfg env N (n + 1)).phase = .nextFile
      ∧ (pipeline_run cfg env N (n + 1)).loads_emitted =
          (pipeline_run cfg env N n).loads_emitted
      ∧ (pipeline_run cfg env N (n + 1)).printed_files =
          (pipeline_run cfg env N n).printed_files
      ∧ (pipeline_run cfg env N (n + 1)).conversion_errors =
          (pipeline_run cfg env N n).conversion_errors) := by
  have hinv := conv_inv_run cfg env N n
  rcases hrun : pipeline_run cfg env N n with
    ⟨T, i, errs, prog, ph, conns, printed, loads, rep⟩
  rw [hrun] at hinv hphase hidx
  simp only at hphase hidx
  subst hphase
  subst hidx
  have hT : T = N := hinv.total_eq
  subst T
  have herr : ∀ e ∈ errs, e.1 < i := hinv.err_idx
  have hpr : ∀ x ∈ printed, x < i := by
    intro x hx
    rcases hinv.printed_idx x hx with h | ⟨_, h | h⟩
    · exact h
    · exact absurd h (by simp)
    · exact absurd h (by simp)
  have hld : ∀ x ∈ loads, x < i := by
    intro x hx
    rcases hinv.loads_idx x hx with h | ⟨_, h, _⟩
    · exact h
    · exact absurd rfl h
  constructor
  · intro hans
    have hstep1 : pipeline_run cfg env N (n + 1) =
        on_all_conversions_finished
          ⟨N, i, errs, i * 100 / N, .nextFile, conns, printed, loads, rep⟩ := by
      show pipeline_step cfg env (pipeline_run cfg env N n) = _
      rw [hrun]
      simp only [pipeline_step]
      unfold convert_next_file
      try dsimp only
      rw [if_neg (show ¬ N ≤ i by omega)]
      rw [hex, hconf, hans]
      rfl
    refine ⟨by rw [hstep1]; try rfl, by rw [hstep1]; try rfl, ?_, ?_, ?_, ?_⟩
    · rw [hstep1]
      exact herr
    · rw [hstep1]
      exact hpr
    · rw [hstep1]
      exact hld
    · intro m
      exact pipeline_run_frozen cfg env N (n + 1) (by rw [hstep1]; rfl) m
  · intro hans
    have hstep2 : pipeline_run cfg env N (n + 1) =
        ⟨N, i + 1, errs, i * 100 / N, .nextFile, conns, printed, loads, rep⟩ := by
      show pipeline_step cfg env (pipeline_run cfg env N n) = _
      rw [hrun]
      simp only [pipeline_step]
      unfold convert_next_file
      try dsimp only
      rw [if_neg (show ¬ N ≤ i by omega)]
      rw [hex, hconf, hans]
      rfl
    exact ⟨by rw [hstep2]; try rfl, by rw [hstep2]; try rfl,
      by rw [hstep2]; try rfl, by rw [hstep2]; try rfl,
      by rw [hstep2]; try rfl⟩

/-- Instance of `cancel_and_skip_single_dispatch`: three files, the output
of file 1 exists.  Cancelling there (after file 0 succeeded) finalizes with
no errors and only file 0 printed; skipping instead advances the cursor to
file 2 with no extra load emitted. -/
theorem cancel_and_skip_single_dispatch_witness :
    ((pipeline_run cfgConfirm envCancelAt1 3 4).phase = .nextFile
      ∧ (pipeline_run cfgConfirm envCancelAt1 3 4).current_conversion_index = 1
      ∧ envCancelAt1.output_exists 1 = true
      ∧ envCancelAt1.overwrite_answer 1 = .cancel)
    ∧ (pipeline_run cfgConfirm envCancelAt1 3 5).phase = .done
    ∧ (pipeline_run cfgConfirm envCancelAt1 3 5).conversion_errors = []
    ∧ (∀ x ∈ (pipeline_run cfgConfirm envCancelAt1 3 5).printed_files, x < 1)
    ∧ (pipeline_run cfgConfirm envSkipAt1 3 5).current_conversion_index = 2
    ∧ (pipeline_run cfgConfirm envSkipAt1 3 5).loads_emitted =
        (pipeline_run cfgConfirm envSkipAt1 3 4).loads_emitted := by
  have h1 := cancel_and_skip_single_dispatch cfgConfirm envCancelAt1 3 4 1
    (by decide) (by decide) (by decide) (by decide) (by decide)
  have h2 := cancel_and_skip_single_dispatch cfgConfirm envSkipAt1 3 4 1
    (by decide) (by decide) (by decide) (by decide) (by decide)
  refine ⟨⟨by decide, by decide, by decide, by decide⟩, ?_, ?_, ?_, ?_, ?_⟩
  · exact (h1.1 (by decide)).1
  · exact ((h1.1 (by decide)).2.1).trans (by decide)
  · exact (h1.1 (by decide)).2.2.2.1
  · exact (h2.2 (by decide)).1
  · exact (h2.2 (by decide)).2.2.1

/-- Cursor invariant under the single-dispatch semantics (the intended
behavior; the C6 entry shows the program violating the
`[0, total_files]` bound and terminality through the C4 bug): the cursor
starts at 0, stays in `[0, total_files]`, every step keeps it or adds
exactly 1, the step after reaching `total_files` is terminal, and the
terminal state absorbs all further steps. -/
theorem cursor_invariant_single_dispatch (cfg : ConversionConfig) (env : ConversionEnv)
    (N n : Nat) :
    (pipeline_run cfg env N 0).current_conversion_index = 0
    ∧ (pipeline_run cfg env N n).current_conversion_index ≤ N
    ∧ ((pipeline_run cfg env N (n + 1)).current_conversion_index =
          (pipeline_run cfg env N n).current_conversion_index
        ∨ (pipeline_run cfg env N (n + 1)).current_conversion_index =
          (pipeline_run cfg env N n).current_conversion_index + 1)
    ∧ ((pipeline_run cfg env N n).current_conversion_index = N →
        (pipeline_run cfg env N (n + 1)).phase = .done)
    ∧ ((pipeline_run cfg env N n).phase = .done →
        ∀ m, pipeline_run cfg env N (n + m) = pipeline_run cfg env N n) := by
  refine ⟨rfl, (conv_inv_run cfg env N n).idx_le,
    pipeline_step_index cfg env _, ?_, ?_⟩
  · intro hN
    exact pipeline_step_at_end cfg env N _ (conv_inv_run cfg env N n) hN
  · intro hd
    exact pipeline_run_frozen cfg env N n hd

/-- Instance of `cursor_invariant_single_dispatch`: a run over 2 files with
everything succeeding reaches cursor 2, after which the job is terminal and
frozen. -/
theorem cursor_invariant_single_dispatch_witness :
    (pipeline_run cfgNoConfirm envAllOk 2 8).current_conversion_index = 2
    ∧ (pipeline_run cfgNoConfirm envAllOk 2 9).phase = .done
    ∧ pipeline_run cfgNoConfirm envAllOk 2 (9 + 3) =
        pipeline_run cfgNoConfirm envAllOk 2 9 := by
  refine ⟨by decide, by decide, ?_⟩
  exact (cursor_invariant_single_dispatch cfgNoConfirm envAllOk 2 9).2.2.2.2
    (by decide) 3

/-- Progress behavior under the single-dispatch semantics (the intended
behavior; the C7 entry shows the program exceeding 100 and
decreasing through the C4 bug): the value stays in `[0, 100]`, never
decreases, and follows the code's formula — `index*100/total_files` plus
the 20/40/60 intra-file increments, 100 when terminal. -/
theorem progress_single_dispatch (cfg : ConversionConfig) (env : ConversionEnv)
    (N n : Nat) :
    (pipeline_run cfg env N n).progress_bar ≤ 100
    ∧ (pipeline_run cfg env N n).progress_bar ≤
        (pipeline_run cfg env N (n + 1)).progress_bar
    ∧ progressSpec N (pipeline_run cfg env N n) :=
  ⟨conv_progress_le_100 N _ (conv_inv_run cfg env N n),
    progress_mono_step cfg env N _ (conv_inv_run cfg env N n),
    (conv_inv_run cfg env N n).progress⟩

/-- C8.  Every step that records an error appends exactly one entry,
advances the cursor by one and returns to per-file processing; every job
terminates (reaches the `done` phase) whatever the per-file failures; and a
step can finalize the job early only at the end of the list or on an
explicit Cancel answer at the overwrite prompt. -/
theorem C8_failures_nonfatal (cfg : ConversionConfig) (env : ConversionEnv)
    (N : Nat) :
    (∀ n, (pipeline_run cfg env N (n + 1)).conversion_errors ≠
          (pipeline_run cfg env N n).conversion_errors →
        (∃ e, (pipeline_run cfg env N (n + 1)).conversion_errors =
            (pipeline_run cfg env N n).conversion_errors ++ [e])
        ∧ (pipeline_run cfg env N (n + 1)).current_conversion_index =
            (pipeline_run cfg env N n).current_conversion_index + 1
        ∧ (pipeline_run cfg env N (n + 1)).phase = .nextFile)
    ∧ (∃ n, (pipeline_run cfg env N n).phase = .done)
    ∧ ∀ n, (pipeline_run cfg env N n).phase ≠ .done →
        (pipeline_run cfg env N (n + 1)).phase = .done →
        (pipeline_run cfg env N n).current_conversion_index = N
        ∨ (env.output_exists
              (pipeline_run cfg env N n).current_conversion_index = true
           ∧ cfg.confirm_overwrite = true
           ∧ env.overwrite_answer
              (pipeline_run cfg env N n).current_conversion_index = .cancel) := by
  refine ⟨?_, run_reaches_done cfg env N, ?_⟩
  · intro n h
    exact pipeline_step_errors cfg env _ h
  · intro n h1 h2
    have hinv := conv_inv_run cfg env N n
    rcases pipeline_step_to_done cfg env _ h1 h2 with h | h
    · left
      have := hinv.total_eq
      have := hinv.idx_le
      omega
    · exact Or.inr h

/-- Witness for C8: one file whose PDF never appears on disk.  The
verification failure appends exactly the "not generated" error, advances the
cursor, and the job still reaches the terminal phase. -/
theorem C8_failures_nonfatal_witness :
    (pipeline_run cfgNoConfirm envNeverWritten 1 5).current_conversion_index =
        (pipeline_run cfgNoConfirm envNeverWritten 1 4).current_conversion_index + 1
    ∧ (pipeline_run cfgNoConfirm envNeverWritten 1 5).phase = .nextFile
    ∧ (pipeline_run cfgNoConfirm envNeverWritten 1 5).conversion_errors =
        [(0, ErrKind.pdfNotGenerated)]
    ∧ (pipeline_run cfgNoConfirm envNeverWritten 1 6).phase = .done := by
  have h := (C8_failures_nonfatal cfgNoConfirm envNeverWritten 1).1 4
    (by decide)
  exact ⟨h.2.1, h.2.2, by decide, by decide⟩

/-- C9.  Whenever the job finalizes — including a finalization triggered by
Cancel before all files were processed — the progress is set to 100 and the
reported success count is `total_files - |errors|` (a well-defined
subtraction: the error list never exceeds `total_files`).  Consequently
skipped and cancelled files count as successes, and with an empty error list
the job reports all `total_files` files as converted. -/
theorem C9_final_success_count (cfg : ConversionConfig) (env : ConversionEnv)
    (N n : Nat) (hdone : (pipeline_run cfg env N n).phase = .done) :
    (pipeline_run cfg env N n).progress_bar = 100
    ∧ (pipeline_run cfg env N n).reported_success =
        some (N - (pipeline_run cfg env N n).conversion_errors.length)
    ∧ (pipeline_run cfg env N n).conversion_errors.length ≤ N := by
  have hinv := conv_inv_run cfg env N n
  obtain ⟨h1, h2⟩ := hinv.done_final hdone
  exact ⟨h1, h2, le_trans hinv.err_len hinv.idx_le⟩

/-- Witness for C9: cancelling immediately at file 0 of a 3-file job
finalizes with progress 100 and reports all 3 files as successes although
none was converted. -/
theorem C9_final_success_count_witness :
    (pipeline_run cfgConfirm envCancelAt0 3 1).phase = .done
    ∧ (pipeline_run cfgConfirm envCancelAt0 3 1).progress_bar = 100
    ∧ (pipeline_run cfgConfirm envCancelAt0 3 1).reported_success = some 3
    ∧ (pipeline_run cfgConfirm envCancelAt0 3 1).printed_files = [] := by
  have h := C9_final_success_count cfgConfirm envCancelAt0 3 1 (by decide)
  exact ⟨by decide, h.1, h.2.1.trans (by decide), by decide⟩

/-- C3 is a code bug.  The claim (and the spec) say Cancel at the
overwrite prompt for file k ends the job immediately with the tail
unconverted and error-free, but through the C4 bug (the failure branch of
`on_html_loaded` leaves its `loadFinished` connection live) a prior load
failure makes Cancel be followed by more per-file work.  Concrete run in
the signal-faithful model — four files, the loads of files 0 and 1 fail,
Cancel at file 2: delivering file 1's load-failure signal invokes the
handler twice; the first invocation records file 1's error and shows the
prompt, where Cancel finalizes the job, but the second (stale) invocation
then records an "HTML load failed" error for file 2 — the cancelled file
itself — and goes on to load and print file 3, so the tail gets an error
entry and an output file. -/
theorem C3_cancel_bug_trace :
    (qt_run cfgConfirm envCancelAfterStale 4 2).done_count = 1
    ∧ (qt_run cfgConfirm envCancelAfterStale 4 2).conversion_errors =
        [(0, .loadFailed), (1, .loadFailed), (2, .loadFailed)]
    ∧ (qt_run cfgConfirm envCancelAfterStale 4 2).loads_emitted = [0, 1, 3]
    ∧ (qt_run cfgConfirm envCancelAfterStale 4 4).printed_files = [3]
    ∧ (qt_run cfgConfirm envCancelAfterStale 4 4).crashed = false := by
  refine ⟨?_, ?_, ?_, ?_, ?_⟩ <;> decide

/-- C6 is a code bug.  The claim (and the spec) state the cursor stays in
`[0, total_files]` and that reaching `total_files` is terminal, but through
the C4 bug a stale handler invocation keeps a load of the last file pending
across finalization.  Concrete run in the signal-faithful model — three
files, the loads of files 0 and 1 fail: file 1's load-failure signal
double-fires; the second invocation records an error for file 2 and
finalizes at cursor 3, yet file 2's still-pending load then succeeds and
its zombie processing prints file 2's PDF after the job was finalized,
pushes the cursor to 4 > total_files = 3, and runs finalization a second
time. -/
theorem C6_cursor_bug_trace :
    (qt_run cfgNoConfirm envDoubleLoadFail 3 2).done_count = 1
    ∧ (qt_run cfgNoConfirm envDoubleLoadFail 3 2).current_conversion_index = 3
    ∧ (qt_run cfgNoConfirm envDoubleLoadFail 3 4).printed_files = [2]
    ∧ (qt_run cfgNoConfirm envDoubleLoadFail 3 5).current_conversion_index = 4
    ∧ (qt_run cfgNoConfirm envDoubleLoadFail 3 5).done_count = 2
    ∧ (qt_run cfgNoConfirm envDoubleLoadFail 3 5).crashed = false := by
  refine ⟨?_, ?_, ?_, ?_, ?_, ?_⟩ <;> decide

/-- C7 is a code bug.  The claim (and the spec) state the progress value
stays in `[0, 100]` and never decreases, but in the zombie processing after
the C4 bug the code computes `index*100/total + inc` with
`index = total_files`: in the same three-file double-load-failure run as
for C6 the progress reaches `int(300/3) + int(40/3) = 113` and then
`100 + int(60/3) = 120`, and the repeated finalization then resets it to
100 — both the `[0, 100]` bound and monotonicity fail in the program. -/
theorem C7_progress_bug_trace :
    (qt_run cfgNoConfirm envDoubleLoadFail 3 2).progress_bar = 100
    ∧ (qt_run cfgNoConfirm envDoubleLoadFail 3 3).progress_bar = 113
    ∧ (qt_run cfgNoConfirm envDoubleLoadFail 3 4).progress_bar = 120
    ∧ (qt_run cfgNoConfirm envDoubleLoadFail 3 5).progress_bar = 100 := by
  refine ⟨?_, ?_, ?_, ?_⟩ <;> decide

end MD2PDF
